import Mathlib

/-!
Shallow embedding of the schema-derivation core of `src/typescript.ts`
(functions `deriveSchemaFromFunctions`, `deriveFunctionSchema`,
`deriveSchemaTypeForTsType` and its helpers).  The TypeScript compiler's
opaque `ts.Type` handles are modelled as identifiers resolved through an
explicit environment of `TsTypeData` records whose fields mirror the
classification queries the source performs (`isUnion`, `isArrayType`,
intrinsic flags, object flags, symbol and declaration locations, ...).
The mutable `TypeDerivationContext` is threaded explicitly, JavaScript
`throw` is modelled with `Except.error`, and the recursion-depth counter
of the source becomes a structurally decreasing fuel argument
(`fuel = MAX_TYPE_DERIVATION_RECURSION + 1 - recursionDepth`).
-/

deriving instance DecidableEq for Except

namespace NdcTs

/-! ## String helpers mirroring `node:path` and JavaScript string methods -/

/-- Splitting a character list at every `/`, mirroring `String.splitOn "/"`. -/
def splitOnSlash : List Char → List (List Char)
  | [] => [[]]
  | c :: rest =>
    let r := splitOnSlash rest
    if c = '/' then [] :: r
    else
      match r with
      | [] => [[c]]
      | h :: t => (c :: h) :: t

def intercalateChars (sep : Char) : List (List Char) → List Char
  | [] => []
  | [x] => x
  | x :: y :: rest => x ++ sep :: intercalateChars sep (y :: rest)

/-- `path.dirname` for POSIX-style paths, as used on the functions file path. -/
def dirname (p : String) : String :=
  match splitOnSlash p.data with
  | [] => "."
  | [_] => "."
  | parts =>
    let joined := intercalateChars '/' parts.dropLast
    if joined = [] then "/" else String.mk joined

/-- Finds the first occurrence of `pat` in a character list, returning the
characters before and after it. -/
def findFirstOccurrence (pat : List Char) : List Char → Option (List Char × List Char)
  | [] => none
  | c :: rest =>
    if pat.isPrefixOf (c :: rest) then
      some ([], (c :: rest).drop pat.length)
    else
      match findFirstOccurrence pat rest with
      | some (pre, post) => some (c :: pre, post)
      | none => none

/-- JavaScript `String.prototype.replace` with a plain-string pattern and an
empty replacement: deletes only the first occurrence. -/
def replaceFirst (s pat : String) : String :=
  if pat.data = [] then s
  else
    match findFirstOccurrence pat.data s.data with
    | some (pre, post) => String.mk (pre ++ post)
    | none => s

/-- The `.replace(/\.ts$/, '')` step of `qualifyTypeName`. -/
def stripTsSuffix (s : String) : String :=
  if ['.', 't', 's'].isSuffixOf s.data then
    String.mk (s.data.take (s.data.length - 3))
  else s

/-- JavaScript `String.prototype.trim` (up to the exact whitespace set). -/
def trimStr (s : String) : String :=
  String.mk (((s.data.dropWhile Char.isWhitespace).reverse.dropWhile
    Char.isWhitespace).reverse)

def isAsciiLetter (c : Char) : Bool :=
  (c ≥ 'a' && c ≤ 'z') || (c ≥ 'A' && c ≤ 'Z')

def isAsciiAlphaNum (c : Char) : Bool :=
  isAsciiLetter c || (c ≥ '0' && c ≤ '9')

/-- `gqlName`: drop one leading non-letter, then replace every character that
is not alphanumeric with an underscore. -/
def gqlName (n : String) : String :=
  let n1 :=
    match n.data with
    | [] => n
    | c :: rest => if isAsciiLetter c then n else String.mk rest
  String.mk (n1.data.map (fun c => if isAsciiAlphaNum c then c else '_'))

/-! ## The schema data model (`schema.ts` values used by `typescript.ts`) -/

inductive NullOrUndefinability
  | acceptsEither
  | acceptsNullOnly
  | acceptsUndefinedOnly
deriving DecidableEq, Repr

inductive TypeKind
  | scalar
  | object
deriving DecidableEq, Repr

inductive TypeDefinition
  | named (name : String) (kind : TypeKind)
  | nullable (underlyingType : TypeDefinition) (nullOrUndefinability : NullOrUndefinability)
  | array (elementType : TypeDefinition)
deriving DecidableEq, Repr

structure ObjectTypeDefinition where
  properties : List (String × TypeDefinition)
deriving DecidableEq, Repr

structure ArgumentDefinition where
  argumentName : String
  description : Option String
  type : TypeDefinition
deriving DecidableEq, Repr

inductive FunctionNdcKind
  | function
  | procedure
deriving DecidableEq, Repr

structure FunctionDefinition where
  description : Option String
  ndcKind : FunctionNdcKind
  arguments : List ArgumentDefinition
  resultType : TypeDefinition
deriving DecidableEq, Repr

/-! ## The model of `ts.Type` handles and the type-checker environment -/

abbrev TypeId := Nat

structure TsSymbol where
  name : String
  declFiles : List String
deriving DecidableEq, Repr

/-- One opaque `ts.Type` handle, recorded as the answers the type checker and
`ts-api-utils` give to the classification queries used by the source. -/
structure TsTypeData where
  displayString : String
  flagBoolean : Bool
  flagString : Bool
  flagNumber : Bool
  flagVoid : Bool
  flagNull : Bool
  flagUndefined : Bool
  isUnion : Bool
  isIntersection : Bool
  members : List TypeId
  isTypeReference : Bool
  typeArguments : List TypeId
  isArrayType : Bool
  isObjectType : Bool
  objectFlagsClass : Bool
  objectFlagsAnonymous : Bool
  objectFlagsInterface : Bool
  targetObjectFlagsInterface : Bool
  symbol : Option TsSymbol
  hasAliasSymbol : Bool
  properties : List (String × TypeId)
deriving DecidableEq, Repr

/-- A `ts.Type` handle carrying no information at all. -/
def emptyTy : TsTypeData :=
  ⟨"", false, false, false, false, false, false, false, false, [],
    false, [], false, false, false, false, false, false, none, false, []⟩

abbrev TypeEnv := TypeId → TsTypeData

/-! ## Association-list operations for JavaScript object maps -/

/-- JavaScript `obj[k] = v`: overwrite in place if the key exists, append
otherwise. -/
def upsert {α : Type} (l : List (String × α)) (k : String) (v : α) :
    List (String × α) :=
  if l.any (fun p => p.1 == k) then
    l.map (fun p => if p.1 == k then (k, v) else p)
  else
    l ++ [(k, v)]

def lookupStr {α : Type} (l : List (String × α)) (k : String) : Option α :=
  (l.find? (fun p => p.1 == k)).map (fun p => p.2)

/-- `scalarTypeDefinitions[name] = {}`: key insertion into a string-keyed map
whose values are all empty records. -/
def addScalar (l : List String) (k : String) : List String :=
  if l.contains k then l else l ++ [k]

/-! ## Type paths -/

inductive TypePathSegment
  | functionParameter (functionName : String) (parameterName : String)
  | functionReturn (functionName : String)
  | objectProperty (typeName : String) (propertyName : String)
  | array
deriving DecidableEq, Repr

def typePathSegmentToString : TypePathSegment → String
  | .functionParameter functionName parameterName =>
      "function \x27" ++ functionName ++ "\x27 parameter \x27" ++ parameterName ++ "\x27"
  | .functionReturn functionName =>
      "function \x27" ++ functionName ++ "\x27 return value"
  | .objectProperty typeName propertyName =>
      "type \x27" ++ typeName ++ "\x27 property \x27" ++ propertyName ++ "\x27"
  | .array => "array type"

def typePathToString (segments : List TypePathSegment) : String :=
  String.intercalate ", " (segments.map typePathSegmentToString)

/-- `generateTypeNameFromTypePath` (note the stray apostrophe the source
emits for `ObjectProperty` segments). -/
def generateTypeNameFromTypePath (typePath : List TypePathSegment) : String :=
  String.intercalate "_" (typePath.map (fun segment =>
    match segment with
    | .functionParameter functionName parameterName =>
        functionName ++ "_arguments_" ++ parameterName
    | .functionReturn functionName => functionName ++ "_output"
    | .objectProperty _ propertyName => "field_\x27" ++ propertyName
    | .array => "array"))

/-! ## The derivation context -/

structure TypeDerivationContext where
  objectTypeDefinitions : List (String × ObjectTypeDefinition)
  scalarTypeDefinitions : List String
  functionsFilePath : String
deriving DecidableEq, Repr

/-! ## Promise and nullable unwrapping -/

def unwrapPromiseType (env : TypeEnv) (t : TypeId) : Option TypeId :=
  let d := env t
  if d.isTypeReference && (d.symbol.map TsSymbol.name == some "Promise") then
    match d.typeArguments with
    | [a] => some a
    | _ => none
  else
    none

def unwrapNullableType (env : TypeEnv) (t : TypeId) :
    Option (TypeId × NullOrUndefinability) :=
  let d := env t
  if !d.isUnion then none
  else
    let isNullable := d.members.any (fun m => (env m).flagNull)
    let isUndefined := d.members.any (fun m => (env m).flagUndefined)
    let nullOrUndefinability : Option NullOrUndefinability :=
      if isNullable then
        if isUndefined then some .acceptsEither else some .acceptsNullOnly
      else
        if isUndefined then some .acceptsUndefinedOnly else none
    let typesWithoutNullAndUndefined :=
      d.members.filter (fun m => !(env m).flagNull && !(env m).flagUndefined)
    match typesWithoutNullAndUndefined, nullOrUndefinability with
    | [m], some n => some (m, n)
    | _, _ => none

/-! ## Name qualification -/

def qualifyTypeName (env : TypeEnv) (t : TypeId) (typePath : List TypePathSegment)
    (name : Option String) (functionsFilePath : String) : Except String String :=
  let d := env t
  let symbol : Option TsSymbol :=
    match d.symbol with
    | some s => some s
    | none =>
      if d.isUnion || d.isIntersection then
        match d.members with
        | m :: _ => (env m).symbol
        | [] => none
      else
        none
  match symbol with
  | none =>
    .error ("Couldn\x27t find symbol for type at " ++ typePathToString typePath)
  | some s =>
    match s.declFiles with
    | [] =>
      .error ("Couldn\x27t find any declarations for type " ++
        (match name with | some n => n | none => "null"))
    | whereFile :: _ =>
      let short := stripTsSuffix
        (replaceFirst whereFile (dirname functionsFilePath ++ "/"))
      let nameOrGeneratedName :=
        match name with
        | some n => n
        | none => generateTypeNameFromTypePath typePath
      if functionsFilePath = whereFile then
        .ok nameOrGeneratedName
      else if short.length < whereFile.length then
        .ok (gqlName short ++ "_" ++ nameOrGeneratedName)
      else
        .error ("Unsupported location for type " ++ nameOrGeneratedName ++
          " in " ++ whereFile)

/-! ## Object type info -/

structure ObjectTypeInfo where
  generatedTypeName : String
  members : List (String × TypeId)
deriving DecidableEq, Repr

def getObjectTypeInfo (env : TypeEnv) (t : TypeId) (typePath : List TypePathSegment)
    (functionsFilePath : String) : Except String (Option ObjectTypeInfo) :=
  let d := env t
  if d.isObjectType && d.objectFlagsAnonymous then
    match qualifyTypeName env t typePath
        (if d.hasAliasSymbol then some d.displayString else none) functionsFilePath with
    | .error e => .error e
    | .ok n => .ok (some ⟨n, d.properties⟩)
  else if d.isObjectType && d.objectFlagsInterface then
    .ok (some ⟨(d.symbol.map TsSymbol.name).getD (generateTypeNameFromTypePath typePath),
      d.properties⟩)
  else if d.isTypeReference && d.targetObjectFlagsInterface && !d.isArrayType &&
      !(d.symbol.map TsSymbol.name == some "Promise") then
    .ok (some ⟨(d.symbol.map TsSymbol.name).getD (generateTypeNameFromTypePath typePath),
      d.properties⟩)
  else if d.isIntersection then
    match qualifyTypeName env t typePath
        (if d.hasAliasSymbol then some d.displayString else none) functionsFilePath with
    | .error e => .error e
    | .ok n => .ok (some ⟨n, d.properties⟩)
  else
    .ok none

/-! ## The recursive derivation engine -/

inductive DeriveOutcome
  | ok (typeDefinition : TypeDefinition) (warnings : List String)
  | errors (errs : List String)
deriving DecidableEq, Repr

abbrev DeriveResult := Except String (DeriveOutcome × TypeDerivationContext)

def MAX_TYPE_DERIVATION_RECURSION : Nat := 20

/-- The property loop inside `deriveSchemaTypeIfObjectType` (the `flatMap`
over the object members, pushing errors and warnings as it goes and
continuing past failed properties). -/
def derivePropsLoop
    (recurse : TypeId → List TypePathSegment → TypeDerivationContext → DeriveResult)
    (typeName : String) (typePath : List TypePathSegment) :
    List (String × TypeId) → List (String × TypeDefinition) → List String →
    List String → TypeDerivationContext →
    Except String ((List (String × TypeDefinition) × List String × List String) ×
      TypeDerivationContext)
  | [], props, errs, warns, ctx => .ok ((props, errs, warns), ctx)
  | (propertyName, propertyType) :: rest, props, errs, warns, ctx =>
    match recurse propertyType
        (typePath ++ [TypePathSegment.objectProperty typeName propertyName]) ctx with
    | .error e => .error e
    | .ok (.errors es, ctx2) =>
      derivePropsLoop recurse typeName typePath rest props (errs ++ es) warns ctx2
    | .ok (.ok td ws, ctx2) =>
      derivePropsLoop recurse typeName typePath rest
        (props ++ [(propertyName, td)]) errs (warns ++ ws) ctx2

def deriveSchemaTypeIfTsArrayType (env : TypeEnv)
    (recurse : TypeId → List TypePathSegment → TypeDerivationContext → DeriveResult)
    (t : TypeId) (typePath : List TypePathSegment) (ctx : TypeDerivationContext) :
    Option DeriveResult :=
  let d := env t
  if d.isArrayType && d.isTypeReference then
    match d.typeArguments with
    | [innerType] =>
      some (match recurse innerType (typePath ++ [TypePathSegment.array]) ctx with
        | .error e => .error e
        | .ok (.errors es, ctx2) => .ok (.errors es, ctx2)
        | .ok (.ok td ws, ctx2) => .ok (.ok (.array td) ws, ctx2))
    | _ => none
  else
    none

def deriveSchemaTypeIfScalarType (env : TypeEnv) (t : TypeId)
    (ctx : TypeDerivationContext) : Option (DeriveOutcome × TypeDerivationContext) :=
  let d := env t
  if d.flagBoolean then
    some (.ok (.named "Boolean" .scalar) [],
      { ctx with scalarTypeDefinitions := addScalar ctx.scalarTypeDefinitions "Boolean" })
  else if d.flagString then
    some (.ok (.named "String" .scalar) [],
      { ctx with scalarTypeDefinitions := addScalar ctx.scalarTypeDefinitions "String" })
  else if d.flagNumber then
    some (.ok (.named "Float" .scalar) [],
      { ctx with scalarTypeDefinitions := addScalar ctx.scalarTypeDefinitions "Float" })
  else
    none

def deriveSchemaTypeIfNullableType (env : TypeEnv)
    (recurse : TypeId → List TypePathSegment → TypeDerivationContext → DeriveResult)
    (t : TypeId) (typePath : List TypePathSegment) (ctx : TypeDerivationContext) :
    Option DeriveResult :=
  match unwrapNullableType env t with
  | none => none
  | some (notNullableType, nullOrUndefinability) =>
    some (match recurse notNullableType typePath ctx with
      | .error e => .error e
      | .ok (.errors es, ctx2) => .ok (.errors es, ctx2)
      | .ok (.ok td ws, ctx2) =>
        .ok (.ok (.nullable td nullOrUndefinability) ws, ctx2))

/-- `context.objectTypeDefinitions[name] = value` on the threaded context. -/
def withObjectType (ctx : TypeDerivationContext) (k : String)
    (v : ObjectTypeDefinition) : TypeDerivationContext :=
  { ctx with objectTypeDefinitions := upsert ctx.objectTypeDefinitions k v }

def deriveSchemaTypeIfObjectType (env : TypeEnv)
    (recurse : TypeId → List TypePathSegment → TypeDerivationContext → DeriveResult)
    (t : TypeId) (typePath : List TypePathSegment) (ctx : TypeDerivationContext) :
    Option DeriveResult :=
  match getObjectTypeInfo env t typePath ctx.functionsFilePath with
  | .error e => some (.error e)
  | .ok none => none
  | .ok (some info) =>
    some (
      if (lookupStr ctx.objectTypeDefinitions info.generatedTypeName).isSome then
        -- Shortcut recursion if the type has already been named
        .ok (.ok (.named info.generatedTypeName .object) [], ctx)
      else
        -- Break infinite recursion
        match derivePropsLoop recurse info.generatedTypeName typePath
            info.members [] [] []
            (withObjectType ctx info.generatedTypeName ⟨[]⟩) with
        | .error e => .error e
        | .ok ((props, errs, warns), ctx2) =>
          if errs.isEmpty then
            .ok (.ok (.named info.generatedTypeName .object) warns,
              withObjectType ctx2 info.generatedTypeName ⟨props⟩)
          else
            .ok (.errors errs, ctx2))

/-- The body of `deriveSchemaTypeForTsType`, with the recursion depth counter
replaced by fuel (`fuel = MAX_TYPE_DERIVATION_RECURSION + 1 - recursionDepth`);
fuel `0` is exactly the `recursionDepth > MAX_TYPE_DERIVATION_RECURSION` throw. -/
def deriveGo (env : TypeEnv) :
    Nat → TypeId → List TypePathSegment → TypeDerivationContext → DeriveResult
  | 0, t, _, _ =>
    .error ("Schema inference validation exceeded depth " ++
      toString MAX_TYPE_DERIVATION_RECURSION ++ " for type " ++ (env t).displayString)
  | Nat.succ fuel, t, typePath, ctx =>
    let d := env t
    if (unwrapPromiseType env t).isSome then
      .ok (.errors ["Promise types are not supported, but one was encountered in " ++
        typePathToString typePath ++ "."], ctx)
    else if d.isObjectType && d.objectFlagsClass then
      .ok (.errors ["Class types are not supported, but one was encountered in " ++
        typePathToString typePath], ctx)
    else if d.flagVoid then
      .ok (.errors ["The void type is not supported, but one was encountered in " ++
        typePathToString typePath], ctx)
    else
      match deriveSchemaTypeIfTsArrayType env (deriveGo env fuel) t typePath ctx with
      | some r => r
      | none =>
        match deriveSchemaTypeIfScalarType env t ctx with
        | some (o, c) => .ok (o, c)
        | none =>
          match deriveSchemaTypeIfNullableType env (deriveGo env fuel) t typePath ctx with
          | some r => r
          | none =>
            match deriveSchemaTypeIfObjectType env (deriveGo env fuel) t typePath ctx with
            | some r => r
            | none => .ok (.errors ["fallback"], ctx)

/-- `deriveSchemaTypeForTsType` with its explicit `recursionDepth` parameter. -/
def deriveSchemaTypeForTsType (env : TypeEnv) (t : TypeId)
    (typePath : List TypePathSegment) (ctx : TypeDerivationContext)
    (recursionDepth : Nat) : DeriveResult :=
  deriveGo env (MAX_TYPE_DERIVATION_RECURSION + 1 - recursionDepth) t typePath ctx

/-! ## Function declarations and per-function derivation -/

structure ParamDecl where
  name : String
  doc : String
  hasValueDeclaration : Bool
  type : TypeId
deriving DecidableEq, Repr

structure CallSignature where
  parameters : List ParamDecl
  returnType : TypeId
deriving DecidableEq, Repr

structure FunctionDecl where
  name : Option String
  hasSymbol : Bool
  doc : String
  jsDocTags : List String
  callSignatures : List CallSignature
  isExported : Bool
deriving DecidableEq, Repr

structure DeriveFunctionSchemaResult where
  name : String
  definition : Option FunctionDefinition
  issues : List String
deriving DecidableEq, Repr

/-- The `flatMap` over the call signature's parameters in
`deriveFunctionSchema`: on a fatal per-type error the parameter is dropped,
its errors are pushed onto the issue list, the function is marked broken and
processing continues with the remaining parameters. -/
def deriveFunctionArgumentsLoop (env : TypeEnv) (functionName : String) :
    List ParamDecl → List ArgumentDefinition → List String → Bool →
    TypeDerivationContext →
    Except String ((List ArgumentDefinition × List String × Bool) ×
      TypeDerivationContext)
  | [], args, issues, functionIsBroken, ctx =>
    .ok ((args, issues, functionIsBroken), ctx)
  | p :: rest, args, issues, functionIsBroken, ctx =>
    if !p.hasValueDeclaration then
      .error ("Function \x27" ++ functionName ++ "\x27 parameter \x27" ++ p.name ++
        "\x27 didn\x27t have a value declaration")
    else
      match deriveSchemaTypeForTsType env p.type
          [TypePathSegment.functionParameter functionName p.name] ctx 0 with
      | .error e => .error e
      | .ok (.errors es, ctx2) =>
        deriveFunctionArgumentsLoop env functionName rest args (issues ++ es) true ctx2
      | .ok (.ok td ws, ctx2) =>
        let paramDesc := trimStr p.doc
        deriveFunctionArgumentsLoop env functionName rest
          (args ++ [{ argumentName := p.name,
                      description := if paramDesc = "" then none else some paramDesc,
                      type := td }])
          (issues ++ ws) functionIsBroken ctx2

def deriveFunctionSchema (env : TypeEnv) (decl : FunctionDecl)
    (ctx : TypeDerivationContext) :
    Except String (DeriveFunctionSchemaResult × TypeDerivationContext) :=
  match decl.name with
  | none => .error "Function didn\x27t have an identifier"
  | some functionName =>
    if !decl.hasSymbol then
      .error ("Function \x27" ++ functionName ++ "\x27 didn\x27t have a symbol")
    else
      let functionDescription := trimStr decl.doc
      let markedPureInJsDoc := decl.jsDocTags.contains "pure"
      match decl.callSignatures with
      | [] =>
        .error ("Function \x27" ++ functionName ++ "\x27 didn\x27t have a call signature")
      | functionCallSig :: _ =>
        match deriveFunctionArgumentsLoop env functionName
            functionCallSig.parameters [] [] false ctx with
        | .error e => .error e
        | .ok ((functionSchemaArguments, issues1, functionIsBroken), ctx1) =>
          match deriveSchemaTypeForTsType env functionCallSig.returnType
              [TypePathSegment.functionReturn functionName] ctx1 0 with
          | .error e => .error e
          | .ok (.errors es, ctx2) =>
            .ok ({ name := functionName, definition := none,
                   issues := issues1 ++ es }, ctx2)
          | .ok (.ok td ws, ctx2) =>
            let functionDefinition : FunctionDefinition :=
              { description :=
                  if functionDescription = "" then none else some functionDescription,
                ndcKind :=
                  if markedPureInJsDoc then FunctionNdcKind.function
                  else FunctionNdcKind.procedure,
                arguments := functionSchemaArguments,
                resultType := td }
            .ok ({ name := functionName,
                   definition :=
                     if functionIsBroken then none else some functionDefinition,
                   issues := issues1 ++ ws }, ctx2)

/-! ## The schema assembler -/

structure FunctionsSchemaAndIssues where
  functions : List (String × FunctionDefinition)
  objectTypes : List (String × ObjectTypeDefinition)
  scalarTypes : List String
  functionIssues : List (String × List String)
deriving DecidableEq, Repr

/-- The loop of `deriveSchemaFromFunctions` over the exported function
declarations, threading the shared pass-scoped context. -/
def processFunctions (env : TypeEnv) :
    List FunctionDecl → List (String × FunctionDefinition) →
    List (String × List String) → TypeDerivationContext →
    Except String (List (String × FunctionDefinition) ×
      List (String × List String) × TypeDerivationContext)
  | [], fns, iss, ctx => .ok (fns, iss, ctx)
  | functionDeclaration :: rest, fns, iss, ctx =>
    match deriveFunctionSchema env functionDeclaration ctx with
    | .error e => .error e
    | .ok (result, ctx2) =>
      let iss2 := if result.issues.isEmpty then iss else upsert iss result.name result.issues
      let fns2 :=
        match result.definition with
        | some d => upsert fns result.name d
        | none => fns
      processFunctions env rest fns2 iss2 ctx2

def deriveSchemaFromFunctions (env : TypeEnv) (decls : List FunctionDecl)
    (functionsFilePath : String) : Except String FunctionsSchemaAndIssues :=
  let functionDeclarations := decls.filter FunctionDecl.isExported
  match processFunctions env functionDeclarations [] [] ⟨[], [], functionsFilePath⟩ with
  | .error e => .error e
  | .ok (fns, iss, ctx) =>
    .ok ⟨fns, ctx.objectTypeDefinitions, ctx.scalarTypeDefinitions, iss⟩

/-! ## Statement-side predicates -/

/-- Is the top constructor of a type definition `nullable`? -/
def isNullableDef : TypeDefinition → Bool
  | .nullable _ _ => true
  | _ => false

/-- A `Nullable` never directly wraps another `Nullable`. -/
def noDoubleNullable : TypeDefinition → Bool
  | .named _ _ => true
  | .array e => noDoubleNullable e
  | .nullable u _ => !isNullableDef u && noDoubleNullable u

/-- The TypeScript compiler's invariant that unions are flattened: a member
of a union type is never itself a union. -/
def FlattenedUnions (env : TypeEnv) : Prop :=
  ∀ t m, (env t).isUnion = true → m ∈ (env t).members → (env m).isUnion = false

/-- All properties of all registered object types avoid directly-nested
`Nullable` definitions. -/
def CtxNoDouble (ctx : TypeDerivationContext) : Prop :=
  ∀ p ∈ ctx.objectTypeDefinitions, ∀ q ∈ p.2.properties, noDoubleNullable q.2 = true

/-- Registry keys (object type names and scalar names) only ever accumulate. -/
def Preserves (ctx ctx' : TypeDerivationContext) : Prop :=
  (∀ name, (lookupStr ctx.objectTypeDefinitions name).isSome = true →
    (lookupStr ctx'.objectTypeDefinitions name).isSome = true) ∧
  (∀ s, s ∈ ctx.scalarTypeDefinitions → s ∈ ctx'.scalarTypeDefinitions)

/-- The expected acceptance flag for the markers found in a union. -/
def expectedAcceptance (hasNull hasUndefined : Bool) : NullOrUndefinability :=
  if hasNull then
    if hasUndefined then .acceptsEither else .acceptsNullOnly
  else .acceptsUndefinedOnly

/-- A nest of `n` array wrappers around the `String` scalar. -/
def nestedArrayTD : Nat → TypeDefinition
  | 0 => .named "String" .scalar
  | n + 1 => .array (nestedArrayTD n)

/-! ## Concrete environments used by witnesses and counterexamples -/

def tyString : TsTypeData := { emptyTy with displayString := "string", flagString := true }
def tyNull : TsTypeData := { emptyTy with displayString := "null", flagNull := true }
def tyUndefined : TsTypeData :=
  { emptyTy with displayString := "undefined", flagUndefined := true }
def tyBoolean : TsTypeData := { emptyTy with displayString := "boolean", flagBoolean := true }
def tyNumber : TsTypeData := { emptyTy with displayString := "number", flagNumber := true }
def tyVoid : TsTypeData := { emptyTy with displayString := "void", flagVoid := true }
def tyClass : TsTypeData := { emptyTy with
  displayString := "C"
  isObjectType := true
  objectFlagsClass := true }

def ctxEmpty : TypeDerivationContext := ⟨[], [], "/entry/main.ts"⟩

/-- An anonymous object type `(a: void, b: <class>)` declared in the entry
unit: both properties fail to derive. -/
def envC1 : TypeEnv := fun t =>
  match t with
  | 0 => { emptyTy with
      displayString := "Obj"
      isObjectType := true
      objectFlagsAnonymous := true
      symbol := some ⟨"__type", ["/entry/main.ts"]⟩
      properties := [("p", 1), ("q", 2)] }
  | 1 => tyVoid
  | 2 => tyClass
  | _ => emptyTy

/-- A type alias `Bar` for an anonymous object type, declared in
`/other/x.ts`, outside the directory of the entry unit `/entry/main.ts`. -/
def envC2 : TypeEnv := fun t =>
  match t with
  | 0 => { emptyTy with
      displayString := "Bar"
      isObjectType := true
      objectFlagsAnonymous := true
      hasAliasSymbol := true
      symbol := some ⟨"Bar", ["/other/x.ts"]⟩ }
  | _ => emptyTy

/-- Like `envC2` but declared under the entry unit's directory. -/
def envC2under : TypeEnv := fun t =>
  match t with
  | 0 => { emptyTy with
      displayString := "Baz"
      isObjectType := true
      objectFlagsAnonymous := true
      hasAliasSymbol := true
      symbol := some ⟨"Baz", ["/entry/sub/mod.ts"]⟩ }
  | _ => emptyTy

/-- Like `envC2` but declared in a file that is outside the entry directory
and whose name does not end in `.ts`. -/
def envC2outside : TypeEnv := fun t =>
  match t with
  | 0 => { emptyTy with
      displayString := "Qux"
      isObjectType := true
      objectFlagsAnonymous := true
      hasAliasSymbol := true
      symbol := some ⟨"Qux", ["/other/data.json"]⟩ }
  | _ => emptyTy

/-- Like `envC2` but declared in the entry unit itself. -/
def envC2entry : TypeEnv := fun t =>
  match t with
  | 0 => { emptyTy with
      displayString := "Loc"
      isObjectType := true
      objectFlagsAnonymous := true
      hasAliasSymbol := true
      symbol := some ⟨"Loc", ["/entry/main.ts"]⟩ }
  | _ => emptyTy

/-- The union `string | null` (type 0) with members `null` (1), `string` (2). -/
def envC3 : TypeEnv := fun t =>
  match t with
  | 0 => { emptyTy with
      displayString := "string | null"
      isUnion := true
      members := [1, 2] }
  | 1 => tyNull
  | 2 => tyString
  | _ => emptyTy

/-- The union `null | undefined`: nothing remains after stripping. -/
def envC3empty : TypeEnv := fun t =>
  match t with
  | 0 => { emptyTy with
      displayString := "null | undefined"
      isUnion := true
      members := [1, 2] }
  | 1 => tyNull
  | 2 => tyUndefined
  | _ => emptyTy

/-- A union with a single member and no null or undefined marker at all. -/
def envC3nomark : TypeEnv := fun t =>
  match t with
  | 0 => { emptyTy with
      displayString := "u"
      isUnion := true
      members := [1] }
  | 1 => tyString
  | _ => emptyTy

/-- A self-referential interface `Foo (self: Foo)` declared in the entry unit. -/
def envC4 : TypeEnv := fun t =>
  match t with
  | 0 => { emptyTy with
      displayString := "Foo"
      isObjectType := true
      objectFlagsInterface := true
      symbol := some ⟨"Foo", ["/entry/main.ts"]⟩
      properties := [("self", 0)] }
  | _ => emptyTy

/-- An interface `Rec (c: string)` (type 5) plus scalars, used by several
function-level scenarios. -/
def envFns : TypeEnv := fun t =>
  match t with
  | 1 => tyVoid
  | 2 => tyClass
  | 3 => tyString
  | 4 => tyBoolean
  | 5 => { emptyTy with
      displayString := "Rec"
      isObjectType := true
      objectFlagsInterface := true
      symbol := some ⟨"Rec", ["/entry/main.ts"]⟩
      properties := [("c", 3)] }
  | _ => emptyTy

/-- `f(x: void, y: <class>, z: string): void` — two broken parameters and a
broken return type. -/
def fnBrokenDecl : FunctionDecl :=
  { name := some "f", hasSymbol := true, doc := "", jsDocTags := [],
    callSignatures := [{ parameters := [⟨"x", "", true, 1⟩, ⟨"y", "", true, 2⟩,
      ⟨"z", "", true, 3⟩], returnType := 1 }],
    isExported := true }

/-- `g(a: string): boolean` — a healthy function. -/
def fnGoodDecl : FunctionDecl :=
  { name := some "g", hasSymbol := true, doc := "", jsDocTags := [],
    callSignatures := [{ parameters := [⟨"a", "", true, 3⟩], returnType := 4 }],
    isExported := true }

/-- `f(y: Rec, z: void): boolean` — registers `Rec` and `String` before its
second parameter fails. -/
def fnRegistersThenBreaksDecl : FunctionDecl :=
  { name := some "f", hasSymbol := true, doc := "", jsDocTags := [],
    callSignatures :=
      [⟨[⟨"y", "", true, 5⟩, ⟨"z", "", true, 1⟩], 4⟩],
    isExported := true }

/-- `h(u: Rec, v: Rec): Rec` — the same interface referenced from three
distinct sites. -/
def fnSharedDecl : FunctionDecl :=
  { name := some "h", hasSymbol := true, doc := "", jsDocTags := [],
    callSignatures :=
      [⟨[⟨"u", "", true, 5⟩, ⟨"v", "", true, 5⟩], 5⟩],
    isExported := true }

/-- An exported function declaration with no name identifier. -/
def fnNoNameDecl : FunctionDecl :=
  { name := none, hasSymbol := true, doc := "", jsDocTags := [],
    callSignatures := [{ parameters := [], returnType := 3 }],
    isExported := true }

/-- The circular array type `A = A[]`: unbounded array nesting with no
structured type on the path. -/
def envC6 : TypeEnv := fun t =>
  match t with
  | 0 => { emptyTy with
      displayString := "A"
      isArrayType := true
      isTypeReference := true
      typeArguments := [0] }
  | _ => emptyTy

/-- Twenty levels of array nesting around `string`: exactly at the ceiling. -/
def envC6ok : TypeEnv := fun t =>
  if t < 20 then
    { emptyTy with
      displayString := "arr"
      isArrayType := true
      isTypeReference := true
      typeArguments := [t + 1] }
  else tyString

/-- A `Promise` handle that simultaneously satisfies the class, void, array,
scalar and union queries: the promise check must win. -/
def tyEverything : TsTypeData :=
  { emptyTy with
    displayString := "P"
    isTypeReference := true
    symbol := some ⟨"Promise", ["/entry/main.ts"]⟩
    typeArguments := [1]
    isObjectType := true
    objectFlagsClass := true
    flagVoid := true
    flagBoolean := true
    isArrayType := true
    isUnion := true
    members := [2, 1] }

/-- Overlapping-category handles for the classification-order witness:
0 = everything at once, 1 = string, 2 = null, 3 = class+void+array+scalar,
4 = void+array+scalar, 5 = array+scalar+union-nullable,
6 = scalar+union-nullable, 7 = union-nullable+interface, 8 = interface,
9 = nothing. -/
def envC7 : TypeEnv := fun t =>
  match t with
  | 0 => tyEverything
  | 1 => tyString
  | 2 => tyNull
  | 3 => { emptyTy with
      displayString := "c3"
      isObjectType := true
      objectFlagsClass := true
      flagVoid := true
      flagBoolean := true
      isArrayType := true
      isTypeReference := true
      typeArguments := [1] }
  | 4 => { emptyTy with
      displayString := "c4"
      flagVoid := true
      flagBoolean := true
      isArrayType := true
      isTypeReference := true
      typeArguments := [1] }
  | 5 => { emptyTy with
      displayString := "c5"
      flagBoolean := true
      isArrayType := true
      isTypeReference := true
      typeArguments := [1]
      isUnion := true
      members := [2, 1] }
  | 6 => { emptyTy with
      displayString := "c6"
      flagBoolean := true
      isUnion := true
      members := [2, 1] }
  | 7 => { emptyTy with
      displayString := "c7"
      isUnion := true
      members := [2, 1]
      isObjectType := true
      objectFlagsInterface := true
      symbol := some ⟨"I7", ["/entry/main.ts"]⟩
      properties := [] }
  | 8 => { emptyTy with
      displayString := "c8"
      isObjectType := true
      objectFlagsInterface := true
      symbol := some ⟨"I8", ["/entry/main.ts"]⟩
      properties := [] }
  | _ => emptyTy

/-! ## Theorems -/

/-- Claim C1: the claim says that when a property of a structured type fails
to derive, the placeholder is removed from the registry and all property
errors propagate as one fatal error set.  The code does propagate both
property errors as one error set, but it leaves the empty cycle-breaking
placeholder behind in `objectTypeDefinitions`: deriving the anonymous object
type `envC1 0` (properties `p: void`, `q: <class>`) fails with both errors,
yet the registry still maps `f_arguments_x` to the empty placeholder. -/
theorem claim_C1_placeholder_left_behind :
    ∃ ctxAfter,
      deriveGo envC1 21 0 [TypePathSegment.functionParameter "f" "x"] ctxEmpty =
        .ok (.errors
          ["The void type is not supported, but one was encountered in function \x27f\x27 parameter \x27x\x27, type \x27f_arguments_x\x27 property \x27p\x27",
           "Class types are not supported, but one was encountered in function \x27f\x27 parameter \x27x\x27, type \x27f_arguments_x\x27 property \x27q\x27"],
          ctxAfter) ∧
      lookupStr ctxAfter.objectTypeDefinitions "f_arguments_x" =
        some ⟨[]⟩ :=
  ⟨⟨[("f_arguments_x", ⟨[]⟩)], [], "/entry/main.ts"⟩, by decide, by decide⟩

/-- Claim C8: the synthesized type name joins the path segments with
underscores; `FunctionParameter` renders as `functionName_arguments_paramName`,
`FunctionReturn` as `functionName_output` and `Array` as `array`, but an
`ObjectProperty` segment renders with a stray apostrophe as
`field_'propertyName`, not as the claimed `field_propertyName`. -/
theorem claim_C8_generated_name_apostrophe :
    generateTypeNameFromTypePath [TypePathSegment.functionParameter "f" "x"] =
      "f_arguments_x" ∧
    generateTypeNameFromTypePath [TypePathSegment.functionReturn "f"] = "f_output" ∧
    generateTypeNameFromTypePath [TypePathSegment.array] = "array" ∧
    generateTypeNameFromTypePath
      [TypePathSegment.functionParameter "f" "x", TypePathSegment.array,
        TypePathSegment.objectProperty "T" "b"] =
      "f_arguments_x_array_field_\x27b" ∧
    generateTypeNameFromTypePath [TypePathSegment.objectProperty "T" "b"] ≠
      "field_b" := by
  refine ⟨by decide, by decide, by decide, by decide, by decide⟩

/-- Claim C6: derivation is bounded by the hard recursion ceiling of 20:
entering `deriveSchemaTypeForTsType` at any recursion depth beyond
`MAX_TYPE_DERIVATION_RECURSION` throws the internal depth-exceeded error;
the circular array type `A = A[]` (no structured type on the path) therefore
fails with the depth-exceeded error instead of looping, while a type nested
in exactly 20 arrays still derives successfully. -/
theorem claim_C6_recursion_ceiling :
    (∀ (env : TypeEnv) (t : TypeId) (p : List TypePathSegment)
        (ctx : TypeDerivationContext) (d : Nat),
      MAX_TYPE_DERIVATION_RECURSION < d →
      deriveSchemaTypeForTsType env t p ctx d =
        .error ("Schema inference validation exceeded depth 20 for type " ++
          (env t).displayString)) ∧
    deriveSchemaTypeForTsType envC6 0 [TypePathSegment.functionReturn "f"]
      ctxEmpty 0 =
      .error "Schema inference validation exceeded depth 20 for type A" ∧
    deriveSchemaTypeForTsType envC6ok 0 [] ctxEmpty 0 =
      .ok (.ok (nestedArrayTD 20) [], ⟨[], ["String"], "/entry/main.ts"⟩) := by
  refine ⟨?_, by decide, by decide⟩
  intro env t p ctx d hd
  unfold deriveSchemaTypeForTsType
  have h0 : MAX_TYPE_DERIVATION_RECURSION + 1 - d = 0 := Nat.sub_eq_zero_of_le hd
  rw [h0]
  rfl

/-- Claim C6 witness: the general depth-ceiling fact instantiated at recursion
depth 21 on the circular array environment. -/
theorem claim_C6_recursion_ceiling_witness :
    deriveSchemaTypeForTsType envC6 0 [] ctxEmpty 21 =
      .error "Schema inference validation exceeded depth 20 for type A" :=
  claim_C6_recursion_ceiling.1 envC6 0 [] ctxEmpty 21 (by decide)

/-- Claim C4: when the generated name of a structured type is already in the
registry, derivation short-circuits to `Named(name, Object)` with the context
unchanged and without invoking the recursion function at all (the statement
holds for an arbitrary `recurse`).  Consequently the interface `Rec`
referenced from three call sites of one function produces exactly one
registry entry with every site resolving to `Named "Rec"`, and the
self-referential interface `Foo (self: Foo)` derives successfully into
exactly one registry entry whose property list references its own name. -/
theorem claim_C4_registry_dedup_and_cycles :
    (∀ (env : TypeEnv)
        (recurse : TypeId → List TypePathSegment → TypeDerivationContext → DeriveResult)
        (t : TypeId) (p : List TypePathSegment) (ctx : TypeDerivationContext)
        (info : ObjectTypeInfo),
      getObjectTypeInfo env t p ctx.functionsFilePath = .ok (some info) →
      (lookupStr ctx.objectTypeDefinitions info.generatedTypeName).isSome = true →
      deriveSchemaTypeIfObjectType env recurse t p ctx =
        some (.ok (.ok (.named info.generatedTypeName .object) [], ctx))) ∧
    deriveSchemaFromFunctions envFns [fnSharedDecl] "/entry/main.ts" =
      .ok ⟨[("h", ⟨none, .procedure,
              [⟨"u", none, .named "Rec" .object⟩, ⟨"v", none, .named "Rec" .object⟩],
              .named "Rec" .object⟩)],
           [("Rec", ⟨[("c", .named "String" .scalar)]⟩)],
           ["String"], []⟩ ∧
    deriveGo envC4 21 0 [TypePathSegment.functionReturn "f"] ctxEmpty =
      .ok (.ok (.named "Foo" .object) [],
        ⟨[("Foo", ⟨[("self", .named "Foo" .object)]⟩)], [], "/entry/main.ts"⟩) := by
  refine ⟨?_, by decide, by decide⟩
  intro env recurse t p ctx info hinfo hlk
  unfold deriveSchemaTypeIfObjectType
  rw [hinfo]
  simp [hlk]

/-- Claim C4 witness: the short-circuit conjunct instantiated on the
self-referential environment with a registry that already names `Foo` and a
recursion function that would fail if it were ever called. -/
theorem claim_C4_registry_dedup_and_cycles_witness :
    deriveSchemaTypeIfObjectType envC4 (fun _ _ _ => .error "unused") 0
        [TypePathSegment.functionReturn "f"]
        ⟨[("Foo", ⟨[]⟩)], [], "/entry/main.ts"⟩ =
      some (.ok (.ok (.named "Foo" .object) [],
        ⟨[("Foo", ⟨[]⟩)], [], "/entry/main.ts"⟩)) :=
  claim_C4_registry_dedup_and_cycles.1 envC4 (fun _ _ _ => .error "unused") 0
    [TypePathSegment.functionReturn "f"]
    ⟨[("Foo", ⟨[]⟩)], [], "/entry/main.ts"⟩
    ⟨"Foo", [("self", 0)]⟩ (by decide) (by decide)

/-- Claim C7: classification runs in a fixed order.  The unsupported forms
(`Promise`, class instance, void) are checked first, in that order, and
short-circuit with a fatal error; then array has priority over scalar,
scalar over nullable-union, nullable-union over structured-object; and a
type matching none of the classifiers falls through to the fatal
`"fallback"` error.  Each conjunct only assumes the failure of the earlier
classifiers, so a type matching several categories resolves to the
earliest. -/
theorem claim_C7_classification_order :
    (∀ (env : TypeEnv) (fuel : Nat) (t : TypeId) (p : List TypePathSegment)
        (ctx : TypeDerivationContext),
      (unwrapPromiseType env t).isSome = true →
      deriveGo env (fuel + 1) t p ctx =
        .ok (.errors ["Promise types are not supported, but one was encountered in " ++
          typePathToString p ++ "."], ctx)) ∧
    (∀ (env : TypeEnv) (fuel : Nat) (t : TypeId) (p : List TypePathSegment)
        (ctx : TypeDerivationContext),
      (unwrapPromiseType env t).isSome = false →
      ((env t).isObjectType && (env t).objectFlagsClass) = true →
      deriveGo env (fuel + 1) t p ctx =
        .ok (.errors ["Class types are not supported, but one was encountered in " ++
          typePathToString p], ctx)) ∧
    (∀ (env : TypeEnv) (fuel : Nat) (t : TypeId) (p : List TypePathSegment)
        (ctx : TypeDerivationContext),
      (unwrapPromiseType env t).isSome = false →
      ((env t).isObjectType && (env t).objectFlagsClass) = false →
      (env t).flagVoid = true →
      deriveGo env (fuel + 1) t p ctx =
        .ok (.errors ["The void type is not supported, but one was encountered in " ++
          typePathToString p], ctx)) ∧
    (∀ (env : TypeEnv) (fuel : Nat) (t : TypeId) (p : List TypePathSegment)
        (ctx : TypeDerivationContext) (r : DeriveResult),
      (unwrapPromiseType env t).isSome = false →
      ((env t).isObjectType && (env t).objectFlagsClass) = false →
      (env t).flagVoid = false →
      deriveSchemaTypeIfTsArrayType env (deriveGo env fuel) t p ctx = some r →
      deriveGo env (fuel + 1) t p ctx = r) ∧
    (∀ (env : TypeEnv) (fuel : Nat) (t : TypeId) (p : List TypePathSegment)
        (ctx : TypeDerivationContext) (o : DeriveOutcome) (c : TypeDerivationContext),
      (unwrapPromiseType env t).isSome = false →
      ((env t).isObjectType && (env t).objectFlagsClass) = false →
      (env t).flagVoid = false →
      deriveSchemaTypeIfTsArrayType env (deriveGo env fuel) t p ctx = none →
      deriveSchemaTypeIfScalarType env t ctx = some (o, c) →
      deriveGo env (fuel + 1) t p ctx = .ok (o, c)) ∧
    (∀ (env : TypeEnv) (fuel : Nat) (t : TypeId) (p : List TypePathSegment)
        (ctx : TypeDerivationContext) (r : DeriveResult),
      (unwrapPromiseType env t).isSome = false →
      ((env t).isObjectType && (env t).objectFlagsClass) = false →
      (env t).flagVoid = false →
      deriveSchemaTypeIfTsArrayType env (deriveGo env fuel) t p ctx = none →
      deriveSchemaTypeIfScalarType env t ctx = none →
      deriveSchemaTypeIfNullableType env (deriveGo env fuel) t p ctx = some r →
      deriveGo env (fuel + 1) t p ctx = r) ∧
    (∀ (env : TypeEnv) (fuel : Nat) (t : TypeId) (p : List TypePathSegment)
        (ctx : TypeDerivationContext) (r : DeriveResult),
      (unwrapPromiseType env t).isSome = false →
      ((env t).isObjectType && (env t).objectFlagsClass) = false →
      (env t).flagVoid = false →
      deriveSchemaTypeIfTsArrayType env (deriveGo env fuel) t p ctx = none →
      deriveSchemaTypeIfScalarType env t ctx = none →
      deriveSchemaTypeIfNullableType env (deriveGo env fuel) t p ctx = none →
      deriveSchemaTypeIfObjectType env (deriveGo env fuel) t p ctx = some r →
      deriveGo env (fuel + 1) t p ctx = r) ∧
    (∀ (env : TypeEnv) (fuel : Nat) (t : TypeId) (p : List TypePathSegment)
        (ctx : TypeDerivationContext),
      (unwrapPromiseType env t).isSome = false →
      ((env t).isObjectType && (env t).objectFlagsClass) = false →
      (env t).flagVoid = false →
      deriveSchemaTypeIfTsArrayType env (deriveGo env fuel) t p ctx = none →
      deriveSchemaTypeIfScalarType env t ctx = none →
      deriveSchemaTypeIfNullableType env (deriveGo env fuel) t p ctx = none →
      deriveSchemaTypeIfObjectType env (deriveGo env fuel) t p ctx = none →
      deriveGo env (fuel + 1) t p ctx = .ok (.errors ["fallback"], ctx)) := by
  refine ⟨?_, ?_, ?_, ?_, ?_, ?_, ?_, ?_⟩
  · intro env fuel t p ctx h1
    simp only [deriveGo]
    simp [h1]
  · intro env fuel t p ctx h1 h2
    simp only [deriveGo]
    simp [h1, h2]
  · intro env fuel t p ctx h1 h2 h3
    simp only [deriveGo]
    simp [h1, h2, h3]
  · intro env fuel t p ctx r h1 h2 h3 h4
    simp only [deriveGo]
    simp [h1, h2, h3, h4]
  · intro env fuel t p ctx o c h1 h2 h3 h4 h5
    simp only [deriveGo]
    simp [h1, h2, h3, h4, h5]
  · intro env fuel t p ctx r h1 h2 h3 h4 h5 h6
    simp only [deriveGo]
    simp [h1, h2, h3, h4, h5, h6]
  · intro env fuel t p ctx r h1 h2 h3 h4 h5 h6 h7
    simp only [deriveGo]
    simp [h1, h2, h3, h4, h5, h6, h7]
  · intro env fuel t p ctx h1 h2 h3 h4 h5 h6 h7
    simp only [deriveGo]
    simp [h1, h2, h3, h4, h5, h6, h7]

/-- Claim C7 witness: the eight ordering conjuncts instantiated on handles
that each satisfy several category queries at once (`envC7 0` matches every
category, `envC7 3` everything but the promise form, and so on down to
`envC7 9` which matches nothing). -/
theorem claim_C7_classification_order_witness :
    deriveGo envC7 21 0 [] ctxEmpty =
      .ok (.errors ["Promise types are not supported, but one was encountered in ."],
        ctxEmpty) ∧
    deriveGo envC7 21 3 [] ctxEmpty =
      .ok (.errors ["Class types are not supported, but one was encountered in "],
        ctxEmpty) ∧
    deriveGo envC7 21 4 [] ctxEmpty =
      .ok (.errors ["The void type is not supported, but one was encountered in "],
        ctxEmpty) ∧
    deriveGo envC7 21 5 [] ctxEmpty =
      .ok (.ok (.array (.named "String" .scalar)) [],
        ⟨[], ["String"], "/entry/main.ts"⟩) ∧
    deriveGo envC7 21 6 [] ctxEmpty =
      .ok (.ok (.named "Boolean" .scalar) [], ⟨[], ["Boolean"], "/entry/main.ts"⟩) ∧
    deriveGo envC7 21 7 [] ctxEmpty =
      .ok (.ok (.nullable (.named "String" .scalar) .acceptsNullOnly) [],
        ⟨[], ["String"], "/entry/main.ts"⟩) ∧
    deriveGo envC7 21 8 [] ctxEmpty =
      .ok (.ok (.named "I8" .object) [],
        ⟨[("I8", ⟨[]⟩)], [], "/entry/main.ts"⟩) ∧
    deriveGo envC7 21 9 [] ctxEmpty = .ok (.errors ["fallback"], ctxEmpty) := by
  refine ⟨?_, ?_, ?_, ?_, ?_, ?_, ?_, ?_⟩
  · exact claim_C7_classification_order.1 envC7 20 0 [] ctxEmpty (by decide)
  · exact claim_C7_classification_order.2.1 envC7 20 3 [] ctxEmpty (by decide) (by decide)
  · exact claim_C7_classification_order.2.2.1 envC7 20 4 [] ctxEmpty (by decide)
      (by decide) (by decide)
  · exact claim_C7_classification_order.2.2.2.1 envC7 20 5 [] ctxEmpty _ (by decide)
      (by decide) (by decide) (by decide)
  · exact claim_C7_classification_order.2.2.2.2.1 envC7 20 6 [] ctxEmpty _ _ (by decide)
      (by decide) (by decide) (by decide) (by decide)
  · exact claim_C7_classification_order.2.2.2.2.2.1 envC7 20 7 [] ctxEmpty _ (by decide)
      (by decide) (by decide) (by decide) (by decide) (by decide)
  · exact claim_C7_classification_order.2.2.2.2.2.2.1 envC7 20 8 [] ctxEmpty _ (by decide)
      (by decide) (by decide) (by decide) (by decide) (by decide) (by decide)
  · exact claim_C7_classification_order.2.2.2.2.2.2.2 envC7 20 9 [] ctxEmpty (by decide)
      (by decide) (by decide) (by decide) (by decide) (by decide) (by decide)

/-- Claim C2 counterexample: the type alias `Bar` is declared in
`/other/x.ts`, which is not the entry source unit `/entry/main.ts` and does
not lie under the entry unit's directory `/entry` — yet qualification does
not fail: because the declaration file name ends in `.ts`, stripping the
suffix shortens it and the code qualifies the name to `other_x_Bar`, so the
whole type derives successfully (no function referencing it is broken). -/
theorem claim_C2_outside_tree_counterexample :
    dirname "/entry/main.ts" = "/entry" ∧
    ("/entry/").data.isPrefixOf ("/other/x.ts").data = false ∧
    qualifyTypeName envC2 0 [TypePathSegment.functionParameter "f" "x"]
      (some "Bar") "/entry/main.ts" = .ok "other_x_Bar" ∧
    deriveGo envC2 21 0 [TypePathSegment.functionParameter "f" "x"] ctxEmpty =
      .ok (.ok (.named "other_x_Bar" .object) [],
        ⟨[("other_x_Bar", ⟨[]⟩)], [], "/entry/main.ts"⟩) := by
  refine ⟨by decide, by decide, by decide, by decide⟩

/-- Claim C2 amended: a structured type declared in the entry unit itself
keeps its unqualified name, and one declared in any other file gets the
sanitized prefix whenever deleting the first occurrence of the entry
directory prefix or stripping a trailing `.ts` shortens the declaration
path — which also covers every `.ts` file outside the entry tree;
qualification fails with the fatal "unsupported location" error exactly for
the remaining files (not the entry unit, path not shortened by either
replacement). -/
theorem claim_C2_amended_qualification (env : TypeEnv) (t : TypeId)
    (p : List TypePathSegment) (n : String) (s : TsSymbol) (w entry : String)
    (hsym : (env t).symbol = some s) (hdecl : s.declFiles = [w]) :
    (w = entry → qualifyTypeName env t p (some n) entry = .ok n) ∧
    (w ≠ entry →
      (stripTsSuffix (replaceFirst w (dirname entry ++ "/"))).length < w.length →
      qualifyTypeName env t p (some n) entry =
        .ok (gqlName (stripTsSuffix (replaceFirst w (dirname entry ++ "/"))) ++
          "_" ++ n)) ∧
    (w ≠ entry →
      ¬ (stripTsSuffix (replaceFirst w (dirname entry ++ "/"))).length < w.length →
      qualifyTypeName env t p (some n) entry =
        .error ("Unsupported location for type " ++ n ++ " in " ++ w)) := by
  refine ⟨?_, ?_, ?_⟩
  · intro hw
    unfold qualifyTypeName
    simp [hsym, hdecl, hw]
  · intro hne hlt
    unfold qualifyTypeName
    simp only [hsym, hdecl]
    rw [if_neg (fun h => hne h.symm), if_pos hlt]
  · intro hne hge
    unfold qualifyTypeName
    simp only [hsym, hdecl]
    rw [if_neg (fun h => hne h.symm), if_neg hge]

/-- Claim C2 amended witness: the three qualification outcomes instantiated
concretely — a type declared in the entry unit keeps its name, one declared
under the entry directory gets the relative-path prefix, and one declared
outside the tree in a non-`.ts` file hits the unsupported-location error. -/
theorem claim_C2_amended_qualification_witness :
    qualifyTypeName envC2entry 0 [] (some "Loc") "/entry/main.ts" = .ok "Loc" ∧
    qualifyTypeName envC2under 0 [] (some "Baz") "/entry/main.ts" =
      .ok "sub_mod_Baz" ∧
    qualifyTypeName envC2outside 0 [] (some "Qux") "/entry/main.ts" =
      .error "Unsupported location for type Qux in /other/data.json" := by
  refine ⟨?_, ?_, ?_⟩
  · exact (claim_C2_amended_qualification envC2entry 0 [] "Loc"
      ⟨"Loc", ["/entry/main.ts"]⟩ "/entry/main.ts" "/entry/main.ts"
      (by decide) (by decide)).1 (by decide)
  · exact (claim_C2_amended_qualification envC2under 0 [] "Baz"
      ⟨"Baz", ["/entry/sub/mod.ts"]⟩ "/entry/sub/mod.ts" "/entry/main.ts"
      (by decide) (by decide)).2.1 (by decide) (by decide)
  · exact (claim_C2_amended_qualification envC2outside 0 [] "Qux"
      ⟨"Qux", ["/other/data.json"]⟩ "/other/data.json" "/entry/main.ts"
      (by decide) (by decide)).2.2 (by decide) (by decide)

/-- Claim C5: a parameter whose type fails fatally is dropped, its errors are
appended to the issue list, the function is marked broken, and the loop
continues with the remaining parameters (first conjunct); a function whose
return type fails, or any of whose parameters failed, ends with no
definition and with all accumulated issues (second and third conjuncts); a
healthy function gets its full definition with its warnings reported
alongside (fourth conjunct); and in the assembled schema a broken function
appears only in the issue report — with the errors of both broken parameters
and the broken return type — while the healthy function appears in the
function map (fifth conjunct). -/
theorem claim_C5_broken_function_reporting :
    (∀ (env : TypeEnv) (fn : String) (p : ParamDecl) (rest : List ParamDecl)
        (args : List ArgumentDefinition) (issues : List String) (broken : Bool)
        (ctx : TypeDerivationContext) (es : List String)
        (ctx2 : TypeDerivationContext),
      p.hasValueDeclaration = true →
      deriveSchemaTypeForTsType env p.type
        [TypePathSegment.functionParameter fn p.name] ctx 0 =
        .ok (.errors es, ctx2) →
      deriveFunctionArgumentsLoop env fn (p :: rest) args issues broken ctx =
        deriveFunctionArgumentsLoop env fn rest args (issues ++ es) true ctx2) ∧
    (∀ (env : TypeEnv) (decl : FunctionDecl) (ctx : TypeDerivationContext)
        (fn : String) (sig : CallSignature) (sigs : List CallSignature)
        (args : List ArgumentDefinition) (issues1 : List String) (broken : Bool)
        (ctx1 : TypeDerivationContext) (es : List String)
        (ctx2 : TypeDerivationContext),
      decl.name = some fn → decl.hasSymbol = true →
      decl.callSignatures = sig :: sigs →
      deriveFunctionArgumentsLoop env fn sig.parameters [] [] false ctx =
        .ok ((args, issues1, broken), ctx1) →
      deriveSchemaTypeForTsType env sig.returnType
        [TypePathSegment.functionReturn fn] ctx1 0 = .ok (.errors es, ctx2) →
      deriveFunctionSchema env decl ctx =
        .ok ({ name := fn, definition := none, issues := issues1 ++ es }, ctx2)) ∧
    (∀ (env : TypeEnv) (decl : FunctionDecl) (ctx : TypeDerivationContext)
        (fn : String) (sig : CallSignature) (sigs : List CallSignature)
        (args : List ArgumentDefinition) (issues1 : List String)
        (ctx1 : TypeDerivationContext) (td : TypeDefinition) (ws : List String)
        (ctx2 : TypeDerivationContext),
      decl.name = some fn → decl.hasSymbol = true →
      decl.callSignatures = sig :: sigs →
      deriveFunctionArgumentsLoop env fn sig.parameters [] [] false ctx =
        .ok ((args, issues1, true), ctx1) →
      deriveSchemaTypeForTsType env sig.returnType
        [TypePathSegment.functionReturn fn] ctx1 0 = .ok (.ok td ws, ctx2) →
      deriveFunctionSchema env decl ctx =
        .ok ({ name := fn, definition := none, issues := issues1 ++ ws }, ctx2)) ∧
    (∀ (env : TypeEnv) (decl : FunctionDecl) (ctx : TypeDerivationContext)
        (fn : String) (sig : CallSignature) (sigs : List CallSignature)
        (args : List ArgumentDefinition) (issues1 : List String)
        (ctx1 : TypeDerivationContext) (td : TypeDefinition) (ws : List String)
        (ctx2 : TypeDerivationContext),
      decl.name = some fn → decl.hasSymbol = true →
      decl.callSignatures = sig :: sigs →
      deriveFunctionArgumentsLoop env fn sig.parameters [] [] false ctx =
        .ok ((args, issues1, false), ctx1) →
      deriveSchemaTypeForTsType env sig.returnType
        [TypePathSegment.functionReturn fn] ctx1 0 = .ok (.ok td ws, ctx2) →
      deriveFunctionSchema env decl ctx =
        .ok ({ name := fn,
               definition := some
                 { description :=
                     if trimStr decl.doc = "" then none else some (trimStr decl.doc),
                   ndcKind :=
                     if decl.jsDocTags.contains "pure" then FunctionNdcKind.function
                     else FunctionNdcKind.procedure,
                   arguments := args,
                   resultType := td },
               issues := issues1 ++ ws }, ctx2)) ∧
    deriveSchemaFromFunctions envFns [fnBrokenDecl, fnGoodDecl] "/entry/main.ts" =
      .ok ⟨[("g", ⟨none, .procedure, [⟨"a", none, .named "String" .scalar⟩],
              .named "Boolean" .scalar⟩)],
           [], ["String", "Boolean"],
           [("f",
             ["The void type is not supported, but one was encountered in function \x27f\x27 parameter \x27x\x27",
              "Class types are not supported, but one was encountered in function \x27f\x27 parameter \x27y\x27",
              "The void type is not supported, but one was encountered in function \x27f\x27 return value"])]⟩ := by
  refine ⟨?_, ?_, ?_, ?_, by decide⟩
  · intro env fn p rest args issues broken ctx es ctx2 hval hderive
    simp only [deriveFunctionArgumentsLoop, hval, hderive]
    simp
  · intro env decl ctx fn sig sigs args issues1 broken ctx1 es ctx2
      hname hsym hsig hloop hret
    unfold deriveFunctionSchema
    simp only [hname, hsym, hsig, hloop, hret]
    rfl
  · intro env decl ctx fn sig sigs args issues1 ctx1 td ws ctx2
      hname hsym hsig hloop hret
    unfold deriveFunctionSchema
    simp only [hname, hsym, hsig, hloop, hret]
    rfl
  · intro env decl ctx fn sig sigs args issues1 ctx1 td ws ctx2
      hname hsym hsig hloop hret
    unfold deriveFunctionSchema
    simp only [hname, hsym, hsig, hloop, hret]
    rfl

/-- Claim C5 witness: the four general conjuncts instantiated concretely — a
void parameter is dropped but recorded while the loop continues; the broken
and healthy function shapes of `fnBrokenDecl` and `fnGoodDecl`. -/
theorem claim_C5_broken_function_reporting_witness :
    deriveFunctionArgumentsLoop envFns "f" [⟨"x", "", true, 1⟩] [] [] false ctxEmpty =
      deriveFunctionArgumentsLoop envFns "f" []
        [] ["The void type is not supported, but one was encountered in function \x27f\x27 parameter \x27x\x27"]
        true ctxEmpty ∧
    deriveFunctionSchema envFns fnBrokenDecl ctxEmpty =
      .ok ({ name := "f", definition := none,
             issues :=
               ["The void type is not supported, but one was encountered in function \x27f\x27 parameter \x27x\x27",
                "Class types are not supported, but one was encountered in function \x27f\x27 parameter \x27y\x27"] ++
               ["The void type is not supported, but one was encountered in function \x27f\x27 return value"] },
        ⟨[], ["String"], "/entry/main.ts"⟩) ∧
    deriveFunctionSchema envFns
      ⟨some "f", true, "", [], [⟨[⟨"x", "", true, 1⟩], 4⟩], true⟩ ctxEmpty =
      .ok ({ name := "f", definition := none,
             issues :=
               ["The void type is not supported, but one was encountered in function \x27f\x27 parameter \x27x\x27"] ++ [] },
        ⟨[], ["Boolean"], "/entry/main.ts"⟩) ∧
    deriveFunctionSchema envFns fnGoodDecl ctxEmpty =
      .ok ({ name := "g",
             definition := some
               { description := none, ndcKind := FunctionNdcKind.procedure,
                 arguments := [⟨"a", none, .named "String" .scalar⟩],
                 resultType := .named "Boolean" .scalar },
             issues := [] ++ [] },
        ⟨[], ["String", "Boolean"], "/entry/main.ts"⟩) := by
  refine ⟨?_, ?_, ?_, ?_⟩
  · exact claim_C5_broken_function_reporting.1 envFns "f" ⟨"x", "", true, 1⟩ []
      [] [] false ctxEmpty _ _ (by decide) (by decide)
  · exact claim_C5_broken_function_reporting.2.1 envFns fnBrokenDecl ctxEmpty
      "f" ⟨[⟨"x", "", true, 1⟩, ⟨"y", "", true, 2⟩, ⟨"z", "", true, 3⟩], 1⟩ []
      [⟨"z", none, .named "String" .scalar⟩] _ true ⟨[], ["String"], "/entry/main.ts"⟩
      _ _ (by decide) (by decide) (by decide) (by decide) (by decide)
  · exact claim_C5_broken_function_reporting.2.2.1 envFns
      ⟨some "f", true, "", [], [⟨[⟨"x", "", true, 1⟩], 4⟩], true⟩ ctxEmpty
      "f" ⟨[⟨"x", "", true, 1⟩], 4⟩ [] [] _ ctxEmpty (.named "Boolean" .scalar) []
      ⟨[], ["Boolean"], "/entry/main.ts"⟩
      (by decide) (by decide) (by decide) (by decide) (by decide)
  · exact claim_C5_broken_function_reporting.2.2.2.1 envFns fnGoodDecl ctxEmpty
      "g" ⟨[⟨"a", "", true, 3⟩], 4⟩ [] [⟨"a", none, .named "String" .scalar⟩] []
      ⟨[], ["String"], "/entry/main.ts"⟩ _ _
      ⟨[], ["String", "Boolean"], "/entry/main.ts"⟩
      (by decide) (by decide) (by decide) (by decide) (by decide)

/-- A function declaration lacking a name identifier, a resolvable symbol or
a call signature makes `deriveFunctionSchema` throw, whatever the context. -/
theorem deriveFunctionSchema_defective (env : TypeEnv) (d : FunctionDecl)
    (ctx : TypeDerivationContext)
    (h : d.name = none ∨ d.hasSymbol = false ∨ d.callSignatures = []) :
    ∃ e, deriveFunctionSchema env d ctx = .error e := by
  unfold deriveFunctionSchema
  cases hn : d.name with
  | none => exact ⟨_, rfl⟩
  | some fn =>
    rcases h with h | h | h
    · rw [hn] at h
      cases h
    · simp only [h]
      exact ⟨_, rfl⟩
    · cases hs : d.hasSymbol with
      | false => simp only [hs]; exact ⟨_, rfl⟩
      | true => simp only [hs, h]; exact ⟨_, rfl⟩

/-- If any declaration in the list is defective, the whole processing loop
throws. -/
theorem processFunctions_defective (env : TypeEnv) :
    ∀ (list : List FunctionDecl) (fns : List (String × FunctionDefinition))
      (iss : List (String × List String)) (ctx : TypeDerivationContext),
      (∃ d ∈ list, d.name = none ∨ d.hasSymbol = false ∨ d.callSignatures = []) →
      ∃ e, processFunctions env list fns iss ctx = .error e := by
  intro list
  induction list with
  | nil =>
    rintro fns iss ctx ⟨d, hd, -⟩
    cases hd
  | cons a rest ih =>
    rintro fns iss ctx ⟨d, hd, hdef⟩
    simp only [processFunctions]
    rcases List.mem_cons.mp hd with rfl | hmem
    · obtain ⟨e, he⟩ := deriveFunctionSchema_defective env d ctx hdef
      rw [he]
      exact ⟨e, rfl⟩
    · cases hres : deriveFunctionSchema env a ctx with
      | error e => exact ⟨e, rfl⟩
      | ok pr =>
        obtain ⟨result, ctx2⟩ := pr
        exact ih _ _ _ ⟨d, hmem, hdef⟩

/-- Claim C10: if any exported function declaration lacks a name identifier,
a resolvable symbol or a call signature, the entire derivation pass throws
and produces no schema at all — rather than just marking that function as
broken in the issue report. -/
theorem claim_C10_defective_declaration_aborts_pass (env : TypeEnv)
    (decls : List FunctionDecl) (functionsFilePath : String) (d : FunctionDecl)
    (hmem : d ∈ decls) (hexp : d.isExported = true)
    (hdef : d.name = none ∨ d.hasSymbol = false ∨ d.callSignatures = []) :
    ∃ e, deriveSchemaFromFunctions env decls functionsFilePath = .error e := by
  have hmem2 : d ∈ decls.filter FunctionDecl.isExported :=
    List.mem_filter.mpr ⟨hmem, hexp⟩
  obtain ⟨e, he⟩ := processFunctions_defective env
    (decls.filter FunctionDecl.isExported) [] [] ⟨[], [], functionsFilePath⟩
    ⟨d, hmem2, hdef⟩
  exact ⟨e, by simp only [deriveSchemaFromFunctions, he]⟩

/-- Claim C10 witness: a source unit with a nameless exported function (and a
perfectly healthy second function) derives no schema at all. -/
theorem claim_C10_defective_declaration_aborts_pass_witness :
    ∃ e, deriveSchemaFromFunctions envFns [fnNoNameDecl, fnGoodDecl]
      "/entry/main.ts" = .error e :=
  claim_C10_defective_declaration_aborts_pass envFns [fnNoNameDecl, fnGoodDecl]
    "/entry/main.ts" fnNoNameDecl (by decide) (by decide) (Or.inl (by decide))

/-! ## Registry monotonicity -/

theorem lookupStr_isSome_iff {α : Type} (l : List (String × α)) (name : String) :
    (lookupStr l name).isSome = true ↔ ∃ x ∈ l, x.1 = name := by
  unfold lookupStr
  rw [Option.isSome_map']
  rw [List.find?_isSome]
  simp

theorem lookupStr_upsert_isSome {α : Type} (l : List (String × α))
    (k name : String) (v : α) (h : (lookupStr l name).isSome = true) :
    (lookupStr (upsert l k v) name).isSome = true := by
  rw [lookupStr_isSome_iff] at h
  rw [lookupStr_isSome_iff]
  obtain ⟨x, hx, hname⟩ := h
  unfold upsert
  split
  · by_cases hxk : x.1 = k
    · refine ⟨(k, v), ?_, by rw [← hxk, hname]⟩
      have := List.mem_map_of_mem (fun p => if p.1 == k then (k, v) else p) hx
      simpa [hxk] using this
    · refine ⟨x, ?_, hname⟩
      have := List.mem_map_of_mem (fun p => if p.1 == k then (k, v) else p) hx
      simpa [hxk] using this
  · exact ⟨x, List.mem_append_left _ hx, hname⟩

theorem addScalar_mem {l : List String} {k s : String} (h : s ∈ l) :
    s ∈ addScalar l k := by
  unfold addScalar
  split
  · exact h
  · exact List.mem_append_left _ h

theorem mem_upsert {α : Type} {l : List (String × α)} {k : String} {v : α}
    {x : String × α} (h : x ∈ upsert l k v) : x = (k, v) ∨ x ∈ l := by
  unfold upsert at h
  split at h
  · obtain ⟨y, hy, hxy⟩ := List.mem_map.mp h
    by_cases hyk : y.1 = k
    · left
      rw [← hxy]
      simp [hyk]
    · right
      rw [← hxy]
      simp only [hyk, beq_iff_eq, if_false]
      exact hy
  · rcases List.mem_append.mp h with h | h
    · right
      exact h
    · left
      simpa using h

theorem preserves_refl (ctx : TypeDerivationContext) : Preserves ctx ctx :=
  ⟨fun _ h => h, fun _ h => h⟩

theorem preserves_trans {a b c : TypeDerivationContext}
    (h1 : Preserves a b) (h2 : Preserves b c) : Preserves a c :=
  ⟨fun n h => h2.1 n (h1.1 n h), fun s h => h2.2 s (h1.2 s h)⟩

theorem preserves_withObjectType (ctx : TypeDerivationContext) (k : String)
    (v : ObjectTypeDefinition) : Preserves ctx (withObjectType ctx k v) :=
  ⟨fun name h => lookupStr_upsert_isSome _ _ _ _ h, fun _ h => h⟩

theorem preserves_addScalarCtx (ctx : TypeDerivationContext) (k : String) :
    Preserves ctx { ctx with scalarTypeDefinitions := addScalar ctx.scalarTypeDefinitions k } :=
  ⟨fun _ h => h, fun _ h => addScalar_mem h⟩

theorem derivePropsLoop_preserves
    (recurse : TypeId → List TypePathSegment → TypeDerivationContext → DeriveResult)
    (hrec : ∀ t p c o c', recurse t p c = .ok (o, c') → Preserves c c') :
    ∀ (members : List (String × TypeId)) (typeName : String)
      (typePath : List TypePathSegment) (props : List (String × TypeDefinition))
      (errs warns : List String) (ctx : TypeDerivationContext)
      (r : List (String × TypeDefinition) × List String × List String)
      (ctx' : TypeDerivationContext),
      derivePropsLoop recurse typeName typePath members props errs warns ctx =
        .ok (r, ctx') →
      Preserves ctx ctx' := by
  intro members
  induction members with
  | nil =>
    intro typeName typePath props errs warns ctx r ctx' h
    simp only [derivePropsLoop] at h
    injection h with h1
    injection h1 with h2 h3
    subst h3
    exact preserves_refl _
  | cons pm rest ih =>
    obtain ⟨pn, pt⟩ := pm
    intro typeName typePath props errs warns ctx r ctx' h
    simp only [derivePropsLoop] at h
    split at h
    · simp at h
    · rename_i es ctx2 heq
      exact preserves_trans (hrec _ _ _ _ _ heq) (ih _ _ _ _ _ _ _ _ h)
    · rename_i td ws ctx2 heq
      exact preserves_trans (hrec _ _ _ _ _ heq) (ih _ _ _ _ _ _ _ _ h)

theorem deriveSchemaTypeIfTsArrayType_preserves (env : TypeEnv)
    (recurse : TypeId → List TypePathSegment → TypeDerivationContext → DeriveResult)
    (hrec : ∀ t p c o c', recurse t p c = .ok (o, c') → Preserves c c')
    (t : TypeId) (p : List TypePathSegment) (ctx : TypeDerivationContext)
    (r : DeriveResult) (o : DeriveOutcome) (ctx' : TypeDerivationContext)
    (h1 : deriveSchemaTypeIfTsArrayType env recurse t p ctx = some r)
    (h2 : r = .ok (o, ctx')) : Preserves ctx ctx' := by
  simp only [deriveSchemaTypeIfTsArrayType] at h1
  split at h1
  · split at h1
    · injection h1 with h1
      subst h1
      split at h2
      · simp at h2
      · rename_i es ctx2 heq
        injection h2 with h2
        injection h2 with h3 h4
        subst h4
        exact hrec _ _ _ _ _ heq
      · rename_i td ws ctx2 heq
        injection h2 with h2
        injection h2 with h3 h4
        subst h4
        exact hrec _ _ _ _ _ heq
    · simp at h1
  · simp at h1

theorem deriveSchemaTypeIfScalarType_preserves (env : TypeEnv) (t : TypeId)
    (ctx : TypeDerivationContext) (o : DeriveOutcome) (c : TypeDerivationContext)
    (h : deriveSchemaTypeIfScalarType env t ctx = some (o, c)) :
    Preserves ctx c := by
  simp only [deriveSchemaTypeIfScalarType] at h
  split_ifs at h <;>
    (injection h with h
     injection h with h1 h2
     subst h2
     exact preserves_addScalarCtx ctx _)

theorem deriveSchemaTypeIfNullableType_preserves (env : TypeEnv)
    (recurse : TypeId → List TypePathSegment → TypeDerivationContext → DeriveResult)
    (hrec : ∀ t p c o c', recurse t p c = .ok (o, c') → Preserves c c')
    (t : TypeId) (p : List TypePathSegment) (ctx : TypeDerivationContext)
    (r : DeriveResult) (o : DeriveOutcome) (ctx' : TypeDerivationContext)
    (h1 : deriveSchemaTypeIfNullableType env recurse t p ctx = some r)
    (h2 : r = .ok (o, ctx')) : Preserves ctx ctx' := by
  unfold deriveSchemaTypeIfNullableType at h1
  split at h1
  · simp at h1
  · injection h1 with h1
    subst h1
    split at h2
    · simp at h2
    · rename_i es ctx2 heq
      injection h2 with h2
      injection h2 with h3 h4
      subst h4
      exact hrec _ _ _ _ _ heq
    · rename_i td ws ctx2 heq
      injection h2 with h2
      injection h2 with h3 h4
      subst h4
      exact hrec _ _ _ _ _ heq

theorem deriveSchemaTypeIfObjectType_preserves (env : TypeEnv)
    (recurse : TypeId → List TypePathSegment → TypeDerivationContext → DeriveResult)
    (hrec : ∀ t p c o c', recurse t p c = .ok (o, c') → Preserves c c')
    (t : TypeId) (p : List TypePathSegment) (ctx : TypeDerivationContext)
    (r : DeriveResult) (o : DeriveOutcome) (ctx' : TypeDerivationContext)
    (h1 : deriveSchemaTypeIfObjectType env recurse t p ctx = some r)
    (h2 : r = .ok (o, ctx')) : Preserves ctx ctx' := by
  simp only [deriveSchemaTypeIfObjectType] at h1
  split at h1
  · injection h1 with h1
    subst h1
    simp at h2
  · simp at h1
  · rename_i info heq
    injection h1 with h1
    subst h1
    split at h2
    · injection h2 with h2
      injection h2 with h3 h4
      subst h4
      exact preserves_refl _
    · split at h2
      · simp at h2
      · rename_i props errs warns ctx2 hloop
        have hp1 : Preserves ctx (withObjectType ctx info.generatedTypeName ⟨[]⟩) :=
          preserves_withObjectType ctx _ _
        have hp2 := derivePropsLoop_preserves recurse hrec info.members
          info.generatedTypeName p [] [] [] _ _ _ hloop
        split at h2
        · injection h2 with h2
          injection h2 with h3 h4
          subst h4
          exact preserves_trans hp1 (preserves_trans hp2
            (preserves_withObjectType ctx2 _ _))
        · injection h2 with h2
          injection h2 with h3 h4
          subst h4
          exact preserves_trans hp1 hp2

/-- Registry keys and scalar names only accumulate during type derivation:
a successful or failed (error-list) outcome never removes an entry that was
present in the incoming context. -/
theorem deriveGo_preserves (env : TypeEnv) :
    ∀ (fuel : Nat) (t : TypeId) (p : List TypePathSegment)
      (ctx : TypeDerivationContext) (o : DeriveOutcome)
      (ctx' : TypeDerivationContext),
      deriveGo env fuel t p ctx = .ok (o, ctx') → Preserves ctx ctx' := by
  intro fuel
  induction fuel with
  | zero =>
    intro t p ctx o ctx' h
    simp [deriveGo] at h
  | succ fuel ih =>
    intro t p ctx o ctx' h
    simp only [deriveGo] at h
    split at h
    · injection h with h1
      injection h1 with h2 h3
      subst h3
      exact preserves_refl _
    · split at h
      · injection h with h1
        injection h1 with h2 h3
        subst h3
        exact preserves_refl _
      · split at h
        · injection h with h1
          injection h1 with h2 h3
          subst h3
          exact preserves_refl _
        · split at h
          · rename_i r harr
            exact deriveSchemaTypeIfTsArrayType_preserves env _ ih _ _ _ _ _ _ harr h
          · split at h
            · rename_i o2 c hscal
              injection h with h1
              injection h1 with h2 h3
              subst h3
              exact deriveSchemaTypeIfScalarType_preserves env _ _ _ _ hscal
            · split at h
              · rename_i r hnul
                exact deriveSchemaTypeIfNullableType_preserves env _ ih _ _ _ _ _ _ hnul h
              · split at h
                · rename_i r hobj
                  exact deriveSchemaTypeIfObjectType_preserves env _ ih _ _ _ _ _ _ hobj h
                · injection h with h1
                  injection h1 with h2 h3
                  subst h3
                  exact preserves_refl _

/-- Claim C9: registry mutations are never rolled back.  Generally, any
derivation outcome — including an error-list outcome — preserves every
object-type key and scalar name already registered (first conjunct); and
concretely, a function whose first parameter registers the object type `Rec`
and the scalar `String`, whose second parameter then fails, and whose
`boolean` return type registers `Boolean`, is excluded from the function map
while `Rec`, `String` and `Boolean` all remain in the final schema with no
surviving function referencing them (second conjunct). -/
theorem claim_C9_registry_not_rolled_back :
    (∀ (env : TypeEnv) (fuel : Nat) (t : TypeId) (p : List TypePathSegment)
        (ctx : TypeDerivationContext) (o : DeriveOutcome)
        (ctx' : TypeDerivationContext),
      deriveGo env fuel t p ctx = .ok (o, ctx') → Preserves ctx ctx') ∧
    deriveSchemaFromFunctions envFns [fnRegistersThenBreaksDecl] "/entry/main.ts" =
      .ok ⟨[], [("Rec", ⟨[("c", .named "String" .scalar)]⟩)], ["String", "Boolean"],
        [("f", ["The void type is not supported, but one was encountered in function \x27f\x27 parameter \x27z\x27"])]⟩ :=
  ⟨deriveGo_preserves, by decide⟩

/-- Claim C9 witness: deriving the interface `Rec` on top of a context that
already holds an object type `Old` and a scalar `Float` keeps both present
(the general conjunct applied at a concrete derivation). -/
theorem claim_C9_registry_not_rolled_back_witness :
    Preserves ⟨[("Old", ⟨[]⟩)], ["Float"], "/entry/main.ts"⟩
      ⟨[("Old", ⟨[]⟩), ("Rec", ⟨[("c", .named "String" .scalar)]⟩)],
        ["Float", "String"], "/entry/main.ts"⟩ :=
  claim_C9_registry_not_rolled_back.1 envFns 21 5
    [TypePathSegment.functionParameter "f" "y"]
    ⟨[("Old", ⟨[]⟩)], ["Float"], "/entry/main.ts"⟩
    (.ok (.named "Rec" .object) [])
    ⟨[("Old", ⟨[]⟩), ("Rec", ⟨[("c", .named "String" .scalar)]⟩)],
      ["Float", "String"], "/entry/main.ts"⟩
    (by decide)

/-! ## Nullable unwrapping and the no-nested-nullable invariant -/

/-- What a successful `unwrapNullableType` implies: the type is a union, the
remaining member is the unique non-null/undefined member, at least one
null/undefined marker was present, and the acceptance flag is recomputed
from exactly which markers were present. -/
theorem unwrapNullableType_some_spec (env : TypeEnv) (t : TypeId) (m : TypeId)
    (nu : NullOrUndefinability) (h : unwrapNullableType env t = some (m, nu)) :
    (env t).isUnion = true ∧
    m ∈ (env t).members ∧
    (env t).members.filter
      (fun x => !(env x).flagNull && !(env x).flagUndefined) = [m] ∧
    ((env t).members.any (fun x => (env x).flagNull) ||
      (env t).members.any (fun x => (env x).flagUndefined)) = true ∧
    nu = expectedAcceptance ((env t).members.any (fun x => (env x).flagNull))
      ((env t).members.any (fun x => (env x).flagUndefined)) := by
  simp only [unwrapNullableType] at h
  split at h
  · simp at h
  · rename_i hU
    have hUnion : (env t).isUnion = true := by
      revert hU
      cases (env t).isUnion <;> simp
    split at h
    · rename_i m' n heqF heqN
      injection h with h1
      injection h1 with h2 h3
      rw [h2] at heqF
      subst h3
      have hmem : m ∈ (env t).members := by
        have hmem2 : m ∈ (env t).members.filter
            (fun x => !(env x).flagNull && !(env x).flagUndefined) := by
          rw [heqF]
          simp
        exact List.mem_of_mem_filter hmem2
      refine ⟨hUnion, hmem, heqF, ?_⟩
      cases hN : (env t).members.any (fun x => (env x).flagNull) <;>
        cases hU2 : (env t).members.any (fun x => (env x).flagUndefined) <;>
          rw [hN, hU2] at heqN <;> simp at heqN
      · exact ⟨rfl, heqN.symm⟩
      · exact ⟨rfl, heqN.symm⟩
      · exact ⟨rfl, heqN.symm⟩
    · simp at h

/-- If the filtered member list is not a singleton, the union is not treated
as a nullable wrapper. -/
theorem unwrapNullableType_none_of_filter (env : TypeEnv) (t : TypeId)
    (hlen : ((env t).members.filter
      (fun x => !(env x).flagNull && !(env x).flagUndefined)).length ≠ 1) :
    unwrapNullableType env t = none := by
  cases hcase : unwrapNullableType env t with
  | none => rfl
  | some pr =>
    obtain ⟨m, nu⟩ := pr
    have hspec := (unwrapNullableType_some_spec env t m nu hcase).2.2.1
    rw [hspec] at hlen
    simp at hlen

/-- If no null and no undefined marker is present, the union is not treated
as a nullable wrapper. -/
theorem unwrapNullableType_none_of_no_marker (env : TypeEnv) (t : TypeId)
    (hN : (env t).members.any (fun x => (env x).flagNull) = false)
    (hU : (env t).members.any (fun x => (env x).flagUndefined) = false) :
    unwrapNullableType env t = none := by
  cases hcase : unwrapNullableType env t with
  | none => rfl
  | some pr =>
    obtain ⟨m, nu⟩ := pr
    have hspec := (unwrapNullableType_some_spec env t m nu hcase).2.2.2.1
    rw [hN, hU] at hspec
    simp at hspec

theorem deriveSchemaTypeIfTsArrayType_ok_shape (env : TypeEnv)
    (recurse : TypeId → List TypePathSegment → TypeDerivationContext → DeriveResult)
    (t : TypeId) (p : List TypePathSegment) (ctx : TypeDerivationContext)
    (r : DeriveResult) (td : TypeDefinition) (ws : List String)
    (ctx' : TypeDerivationContext)
    (h1 : deriveSchemaTypeIfTsArrayType env recurse t p ctx = some r)
    (h2 : r = .ok (.ok td ws, ctx')) : ∃ e, td = .array e := by
  simp only [deriveSchemaTypeIfTsArrayType] at h1
  split at h1
  · split at h1
    · injection h1 with h1
      subst h1
      split at h2
      · simp at h2
      · simp at h2
      · rename_i td0 ws0 ctx2 heq
        injection h2 with h3
        injection h3 with h4 h5
        injection h4 with h6 h7
        exact ⟨td0, h6.symm⟩
    · simp at h1
  · simp at h1

theorem deriveSchemaTypeIfScalarType_ok_shape (env : TypeEnv) (t : TypeId)
    (ctx : TypeDerivationContext) (o : DeriveOutcome) (c : TypeDerivationContext)
    (h : deriveSchemaTypeIfScalarType env t ctx = some (o, c)) :
    ∃ n, o = .ok (.named n .scalar) [] := by
  simp only [deriveSchemaTypeIfScalarType] at h
  split_ifs at h <;>
    (injection h with h1
     injection h1 with h2 h3
     exact ⟨_, h2.symm⟩)

theorem deriveSchemaTypeIfObjectType_ok_shape (env : TypeEnv)
    (recurse : TypeId → List TypePathSegment → TypeDerivationContext → DeriveResult)
    (t : TypeId) (p : List TypePathSegment) (ctx : TypeDerivationContext)
    (r : DeriveResult) (td : TypeDefinition) (ws : List String)
    (ctx' : TypeDerivationContext)
    (h1 : deriveSchemaTypeIfObjectType env recurse t p ctx = some r)
    (h2 : r = .ok (.ok td ws, ctx')) : ∃ n, td = .named n .object := by
  simp only [deriveSchemaTypeIfObjectType] at h1
  split at h1
  · injection h1 with h1
    subst h1
    simp at h2
  · simp at h1
  · rename_i info heq
    injection h1 with h1
    subst h1
    split at h2
    · injection h2 with h3
      injection h3 with h4 h5
      injection h4 with h6 h7
      exact ⟨info.generatedTypeName, h6.symm⟩
    · split at h2
      · simp at h2
      · rename_i props errs warns ctx2 hloop
        split at h2
        · injection h2 with h3
          injection h3 with h4 h5
          injection h4 with h6 h7
          exact ⟨info.generatedTypeName, h6.symm⟩
        · simp at h2

/-- The nullable classifier only fires on union types. -/
theorem deriveSchemaTypeIfNullableType_some_isUnion (env : TypeEnv)
    (recurse : TypeId → List TypePathSegment → TypeDerivationContext → DeriveResult)
    (t : TypeId) (p : List TypePathSegment) (ctx : TypeDerivationContext)
    (r : DeriveResult)
    (h : deriveSchemaTypeIfNullableType env recurse t p ctx = some r) :
    (env t).isUnion = true := by
  simp only [deriveSchemaTypeIfNullableType] at h
  split at h
  · simp at h
  · rename_i m nu hu
    exact (unwrapNullableType_some_spec env t m nu hu).1

/-- A successful derivation produces a top-level `Nullable` only for union
types. -/
theorem deriveGo_ok_nullable_isUnion (env : TypeEnv) :
    ∀ (fuel : Nat) (t : TypeId) (p : List TypePathSegment)
      (ctx : TypeDerivationContext) (u : TypeDefinition)
      (nu : NullOrUndefinability) (ws : List String)
      (ctx' : TypeDerivationContext),
      deriveGo env fuel t p ctx = .ok (.ok (.nullable u nu) ws, ctx') →
      (env t).isUnion = true := by
  intro fuel t p ctx u nu ws ctx' h
  cases fuel with
  | zero => simp [deriveGo] at h
  | succ fuel =>
    simp only [deriveGo] at h
    split at h
    · simp at h
    · split at h
      · simp at h
      · split at h
        · simp at h
        · split at h
          · rename_i r harr
            obtain ⟨e, he⟩ :=
              deriveSchemaTypeIfTsArrayType_ok_shape env _ t p ctx r _ _ _ harr h
            simp at he
          · split at h
            · rename_i o2 c hscal
              injection h with h1
              injection h1 with h2 h3
              obtain ⟨n, hn⟩ := deriveSchemaTypeIfScalarType_ok_shape env t ctx o2 c hscal
              rw [h2] at hn
              injection hn with hn1 hn2
              simp at hn1
            · split at h
              · rename_i r hnul
                exact deriveSchemaTypeIfNullableType_some_isUnion env _ t p ctx r hnul
              · split at h
                · rename_i r hobj
                  obtain ⟨n, hn⟩ :=
                    deriveSchemaTypeIfObjectType_ok_shape env _ t p ctx r _ _ _ hobj h
                  simp at hn
                · simp at h

theorem CtxNoDouble_withObjectType (ctx : TypeDerivationContext) (k : String)
    (v : ObjectTypeDefinition) (hctx : CtxNoDouble ctx)
    (hv : ∀ q ∈ v.properties, noDoubleNullable q.2 = true) :
    CtxNoDouble (withObjectType ctx k v) := by
  intro pr hpr q hq
  rcases mem_upsert hpr with h | h
  · subst h
    exact hv q hq
  · exact hctx pr h q hq

theorem derivePropsLoop_noDouble
    (recurse : TypeId → List TypePathSegment → TypeDerivationContext → DeriveResult)
    (hrec : ∀ t p c o c', CtxNoDouble c → recurse t p c = .ok (o, c') →
      CtxNoDouble c' ∧ ∀ td ws, o = .ok td ws → noDoubleNullable td = true) :
    ∀ (members : List (String × TypeId)) (typeName : String)
      (typePath : List TypePathSegment) (props : List (String × TypeDefinition))
      (errs warns : List String) (ctx : TypeDerivationContext)
      (res : List (String × TypeDefinition) × List String × List String)
      (ctx' : TypeDerivationContext),
      CtxNoDouble ctx → (∀ q ∈ props, noDoubleNullable q.2 = true) →
      derivePropsLoop recurse typeName typePath members props errs warns ctx =
        .ok (res, ctx') →
      CtxNoDouble ctx' ∧ ∀ q ∈ res.1, noDoubleNullable q.2 = true := by
  intro members
  induction members with
  | nil =>
    intro typeName typePath props errs warns ctx res ctx' hctx hprops h
    simp only [derivePropsLoop] at h
    injection h with h1
    injection h1 with h2 h3
    subst h3
    subst h2
    exact ⟨hctx, hprops⟩
  | cons pm rest ih =>
    obtain ⟨pn, pt⟩ := pm
    intro typeName typePath props errs warns ctx res ctx' hctx hprops h
    simp only [derivePropsLoop] at h
    split at h
    · simp at h
    · rename_i es ctx2 heq
      exact ih _ _ _ _ _ _ _ _ (hrec _ _ _ _ _ hctx heq).1 hprops h
    · rename_i td ws ctx2 heq
      obtain ⟨hc2, htd⟩ := hrec _ _ _ _ _ hctx heq
      refine ih _ _ _ _ _ _ _ _ hc2 ?_ h
      intro q hq
      rcases List.mem_append.mp hq with hq | hq
      · exact hprops q hq
      · simp at hq
        rw [hq]
        exact htd td ws rfl

/-- Under the compiler invariant that unions are flattened, every type
definition a derivation produces — and every property type it stores in the
registry — satisfies `noDoubleNullable`. -/
theorem deriveGo_noDouble (env : TypeEnv) (hflat : FlattenedUnions env) :
    ∀ (fuel : Nat) (t : TypeId) (p : List TypePathSegment)
      (ctx : TypeDerivationContext) (o : DeriveOutcome)
      (ctx' : TypeDerivationContext),
      CtxNoDouble ctx →
      deriveGo env fuel t p ctx = .ok (o, ctx') →
      CtxNoDouble ctx' ∧ ∀ td ws, o = .ok td ws → noDoubleNullable td = true := by
  intro fuel
  induction fuel with
  | zero =>
    intro t p ctx o ctx' hctx h
    simp [deriveGo] at h
  | succ fuel ih =>
    intro t p ctx o ctx' hctx h
    simp only [deriveGo] at h
    split at h
    · injection h with h1
      injection h1 with h2 h3
      subst h3
      subst h2
      exact ⟨hctx, fun td ws hh => nomatch hh⟩
    · split at h
      · injection h with h1
        injection h1 with h2 h3
        subst h3
        subst h2
        exact ⟨hctx, fun td ws hh => nomatch hh⟩
      · split at h
        · injection h with h1
          injection h1 with h2 h3
          subst h3
          subst h2
          exact ⟨hctx, fun td ws hh => nomatch hh⟩
        · split at h
          · rename_i r harr
            simp only [deriveSchemaTypeIfTsArrayType] at harr
            split at harr
            · split at harr
              · injection harr with harr
                subst harr
                split at h
                · simp at h
                · rename_i es ctx2 heq
                  injection h with h1
                  injection h1 with h2 h3
                  subst h3
                  subst h2
                  exact ⟨(ih _ _ _ _ _ hctx heq).1, fun td ws hh => nomatch hh⟩
                · rename_i td0 ws0 ctx2 heq
                  injection h with h1
                  injection h1 with h2 h3
                  subst h3
                  subst h2
                  obtain ⟨hc2, hts⟩ := ih _ _ _ _ _ hctx heq
                  refine ⟨hc2, ?_⟩
                  intro td ws hh
                  injection hh with h5 h6
                  rw [← h5]
                  simp only [noDoubleNullable]
                  exact hts td0 ws0 rfl
              · simp at harr
            · simp at harr
          · split at h
            · rename_i o2 c hscal
              injection h with h1
              injection h1 with h2 h3
              subst h3
              subst h2
              obtain ⟨n, hn⟩ := deriveSchemaTypeIfScalarType_ok_shape env t ctx o2 c hscal
              refine ⟨?_, ?_⟩
              · simp only [deriveSchemaTypeIfScalarType] at hscal
                split_ifs at hscal <;>
                  (injection hscal with h4
                   injection h4 with h5 h6
                   rw [← h6]
                   exact hctx)
              · intro td ws hh
                rw [hn] at hh
                injection hh with h5 h6
                rw [← h5]
                rfl
            · split at h
              · rename_i r hnul
                simp only [deriveSchemaTypeIfNullableType] at hnul
                split at hnul
                · simp at hnul
                · rename_i m nu hu
                  injection hnul with hnul
                  subst hnul
                  split at h
                  · simp at h
                  · rename_i es ctx2 heq
                    injection h with h1
                    injection h1 with h2 h3
                    subst h3
                    subst h2
                    exact ⟨(ih _ _ _ _ _ hctx heq).1, fun td ws hh => nomatch hh⟩
                  · rename_i u ws0 ctx2 heq
                    injection h with h1
                    injection h1 with h2 h3
                    subst h3
                    subst h2
                    obtain ⟨hc2, hts⟩ := ih _ _ _ _ _ hctx heq
                    have hspec := unwrapNullableType_some_spec env t m nu hu
                    have hmU : (env m).isUnion = false := hflat t m hspec.1 hspec.2.1
                    have hunn : isNullableDef u = false := by
                      cases hu2 : u with
                      | nullable u2 nu2 =>
                        have := deriveGo_ok_nullable_isUnion env fuel m p ctx
                          u2 nu2 ws0 ctx2 (by rw [← hu2]; exact heq)
                        rw [hmU] at this
                        cases this
                      | named n k => rfl
                      | array e => rfl
                    refine ⟨hc2, ?_⟩
                    intro td ws hh
                    injection hh with h5 h6
                    rw [← h5]
                    simp only [noDoubleNullable, hunn]
                    simp only [Bool.not_false, Bool.true_and]
                    exact hts u ws0 rfl
              · split at h
                · rename_i r hobj
                  simp only [deriveSchemaTypeIfObjectType] at hobj
                  split at hobj
                  · injection hobj with hobj
                    subst hobj
                    simp at h
                  · simp at hobj
                  · rename_i info heq
                    injection hobj with hobj
                    subst hobj
                    split at h
                    · injection h with h1
                      injection h1 with h2 h3
                      subst h3
                      subst h2
                      exact ⟨hctx, fun td ws hh => by
                        injection hh with h5 h6
                        rw [← h5]
                        rfl⟩
                    · split at h
                      · simp at h
                      · rename_i props errs warns ctx2 hloop
                        have hctx1 : CtxNoDouble
                            (withObjectType ctx info.generatedTypeName ⟨[]⟩) :=
                          CtxNoDouble_withObjectType ctx _ _ hctx (by simp)
                        obtain ⟨hc2, hprops⟩ := derivePropsLoop_noDouble
                          (deriveGo env fuel) (fun t2 p2 c2 o2 c2' hc hcall =>
                            ih t2 p2 c2 o2 c2' hc hcall)
                          info.members info.generatedTypeName p [] [] [] _ _ _
                          hctx1 (by simp) hloop
                        split at h
                        · injection h with h1
                          injection h1 with h2 h3
                          subst h3
                          subst h2
                          refine ⟨CtxNoDouble_withObjectType ctx2 _ _ hc2 hprops, ?_⟩
                          intro td ws hh
                          injection hh with h5 h6
                          rw [← h5]
                          rfl
                        · injection h with h1
                          injection h1 with h2 h3
                          subst h3
                          subst h2
                          exact ⟨hc2, fun td ws hh => nomatch hh⟩
                · injection h with h1
                  injection h1 with h2 h3
                  subst h3
                  subst h2
                  exact ⟨hctx, fun td ws hh => nomatch hh⟩

/-- The union members of `envC3` are never themselves unions. -/
theorem flattenedUnions_envC3 : FlattenedUnions envC3 := by
  intro t m hu hm
  rcases t with _ | _ | _ | n
  · simp only [envC3] at hm
    fin_cases hm <;> rfl
  · simp [envC3, tyNull, emptyTy] at hu
  · simp [envC3, tyString, emptyTy] at hu
  · simp [envC3, emptyTy] at hu

/-- Claim C3: stripping exactly the null/undefined members of a union with
one remaining member yields that member together with the acceptance flag
recomputed from the markers present (first conjunct); a union whose stripped
member list is not a singleton, or which carries no marker, is not treated as
a nullable wrapper (second and third conjuncts), so the nullable classifier
declines and derivation falls through to the structured-object or fallback
path (fourth and sixth conjuncts); when it does match, the remaining member
is derived under the same type path and wrapped in `Nullable` (fifth
conjunct); and under the compiler invariant that unions are flattened, no
produced type definition — nor any property stored in the registry — ever
has a `Nullable` directly wrapping another `Nullable` (seventh conjunct). -/
theorem claim_C3_nullable_normalization :
    (∀ (env : TypeEnv) (t : TypeId) (m : TypeId) (nu : NullOrUndefinability),
      unwrapNullableType env t = some (m, nu) →
      (env t).isUnion = true ∧
      m ∈ (env t).members ∧
      (env t).members.filter
        (fun x => !(env x).flagNull && !(env x).flagUndefined) = [m] ∧
      ((env t).members.any (fun x => (env x).flagNull) ||
        (env t).members.any (fun x => (env x).flagUndefined)) = true ∧
      nu = expectedAcceptance
        ((env t).members.any (fun x => (env x).flagNull))
        ((env t).members.any (fun x => (env x).flagUndefined))) ∧
    (∀ (env : TypeEnv) (t : TypeId),
      ((env t).members.filter
        (fun x => !(env x).flagNull && !(env x).flagUndefined)).length ≠ 1 →
      unwrapNullableType env t = none) ∧
    (∀ (env : TypeEnv) (t : TypeId),
      (env t).members.any (fun x => (env x).flagNull) = false →
      (env t).members.any (fun x => (env x).flagUndefined) = false →
      unwrapNullableType env t = none) ∧
    (∀ (env : TypeEnv)
        (recurse : TypeId → List TypePathSegment → TypeDerivationContext → DeriveResult)
        (t : TypeId) (p : List TypePathSegment) (ctx : TypeDerivationContext),
      unwrapNullableType env t = none →
      deriveSchemaTypeIfNullableType env recurse t p ctx = none) ∧
    (∀ (env : TypeEnv)
        (recurse : TypeId → List TypePathSegment → TypeDerivationContext → DeriveResult)
        (t : TypeId) (p : List TypePathSegment) (ctx : TypeDerivationContext)
        (m : TypeId) (nu : NullOrUndefinability) (td : TypeDefinition)
        (ws : List String) (ctx2 : TypeDerivationContext),
      unwrapNullableType env t = some (m, nu) →
      recurse m p ctx = .ok (.ok td ws, ctx2) →
      deriveSchemaTypeIfNullableType env recurse t p ctx =
        some (.ok (.ok (.nullable td nu) ws, ctx2))) ∧
    (∀ (env : TypeEnv) (fuel : Nat) (t : TypeId) (p : List TypePathSegment)
        (ctx : TypeDerivationContext),
      (unwrapPromiseType env t).isSome = false →
      ((env t).isObjectType && (env t).objectFlagsClass) = false →
      (env t).flagVoid = false →
      deriveSchemaTypeIfTsArrayType env (deriveGo env fuel) t p ctx = none →
      deriveSchemaTypeIfScalarType env t ctx = none →
      deriveSchemaTypeIfNullableType env (deriveGo env fuel) t p ctx = none →
      deriveGo env (fuel + 1) t p ctx =
        (match deriveSchemaTypeIfObjectType env (deriveGo env fuel) t p ctx with
          | some r => r
          | none => .ok (.errors ["fallback"], ctx))) ∧
    (∀ (env : TypeEnv), FlattenedUnions env →
      ∀ (fuel : Nat) (t : TypeId) (p : List TypePathSegment)
        (ctx : TypeDerivationContext) (o : DeriveOutcome)
        (ctx' : TypeDerivationContext),
      CtxNoDouble ctx →
      deriveGo env fuel t p ctx = .ok (o, ctx') →
      CtxNoDouble ctx' ∧
        ∀ td ws, o = .ok td ws → noDoubleNullable td = true) := by
  refine ⟨unwrapNullableType_some_spec, unwrapNullableType_none_of_filter,
    unwrapNullableType_none_of_no_marker, ?_, ?_, ?_, deriveGo_noDouble⟩
  · intro env recurse t p ctx h
    simp only [deriveSchemaTypeIfNullableType, h]
  · intro env recurse t p ctx m nu td ws ctx2 hu hr
    simp only [deriveSchemaTypeIfNullableType, hu, hr]
  · intro env fuel t p ctx h1 h2 h3 h4 h5 h6
    simp only [deriveGo]
    simp [h1, h2, h3, h4, h5, h6]

/-- Claim C3 witness: the conjuncts instantiated on the union
`string | null` (`envC3 0`), on `null | undefined` (`envC3empty 0`, nothing
remains after stripping) and on a marker-free one-member union
(`envC3nomark 0`), with the invariant conjunct applied to the concrete
derivation of `string | null`. -/
theorem claim_C3_nullable_normalization_witness :
    ((envC3 0).isUnion = true ∧
      2 ∈ (envC3 0).members ∧
      (envC3 0).members.filter
        (fun x => !(envC3 x).flagNull && !(envC3 x).flagUndefined) = [2] ∧
      ((envC3 0).members.any (fun x => (envC3 x).flagNull) ||
        (envC3 0).members.any (fun x => (envC3 x).flagUndefined)) = true ∧
      NullOrUndefinability.acceptsNullOnly = expectedAcceptance
        ((envC3 0).members.any (fun x => (envC3 x).flagNull))
        ((envC3 0).members.any (fun x => (envC3 x).flagUndefined))) ∧
    unwrapNullableType envC3empty 0 = none ∧
    unwrapNullableType envC3nomark 0 = none ∧
    deriveSchemaTypeIfNullableType envC3empty (deriveGo envC3empty 20) 0 []
      ctxEmpty = none ∧
    deriveSchemaTypeIfNullableType envC3 (deriveGo envC3 20) 0
      [TypePathSegment.functionReturn "f"] ctxEmpty =
      some (.ok (.ok (.nullable (.named "String" .scalar) .acceptsNullOnly) [],
        ⟨[], ["String"], "/entry/main.ts"⟩)) ∧
    deriveGo envC3empty 21 0 [] ctxEmpty = .ok (.errors ["fallback"], ctxEmpty) ∧
    (CtxNoDouble ⟨[], ["String"], "/entry/main.ts"⟩ ∧
      ∀ td ws,
        DeriveOutcome.ok (.nullable (.named "String" .scalar) .acceptsNullOnly)
          [] = .ok td ws →
        noDoubleNullable td = true) := by
  refine ⟨?_, ?_, ?_, ?_, ?_, ?_, ?_⟩
  · exact claim_C3_nullable_normalization.1 envC3 0 2 .acceptsNullOnly (by decide)
  · exact claim_C3_nullable_normalization.2.1 envC3empty 0 (by decide)
  · exact claim_C3_nullable_normalization.2.2.1 envC3nomark 0 (by decide) (by decide)
  · exact claim_C3_nullable_normalization.2.2.2.1 envC3empty (deriveGo envC3empty 20)
      0 [] ctxEmpty (by decide)
  · exact claim_C3_nullable_normalization.2.2.2.2.1 envC3 (deriveGo envC3 20) 0
      [TypePathSegment.functionReturn "f"] ctxEmpty 2 .acceptsNullOnly
      (.named "String" .scalar) [] ⟨[], ["String"], "/entry/main.ts"⟩
      (by decide) (by decide)
  · exact claim_C3_nullable_normalization.2.2.2.2.2.1 envC3empty 20 0 [] ctxEmpty
      (by decide) (by decide) (by decide) (by decide) (by decide) (by decide)
  · exact claim_C3_nullable_normalization.2.2.2.2.2.2 envC3 flattenedUnions_envC3
      21 0 [TypePathSegment.functionReturn "f"] ctxEmpty
      (.ok (.nullable (.named "String" .scalar) .acceptsNullOnly) [])
      ⟨[], ["String"], "/entry/main.ts"⟩
      (by intro pr hpr q hq; cases hpr) (by decide)

end NdcTs
